import Mathlib

/-!
Verification of the listener/virtual-host/route compiler
(`python/ambassador/envoy/v3/v3listener.py`).

The Python source is shallowly embedded: dict-shaped route objects become
structures, the mutable listener / vhost registries become explicit state
passed through `Except`-valued functions, and the variant-building block
(which is about aliasing and in-place mutation) additionally gets an
explicit-heap embedding at the end of the file.
-/

set_option autoImplicit false

/-- One entry of `match["headers"]`: the code reads the key `name`
(via `header.get("name", "")`) and appends the header
`{name: x-forwarded-proto, exact_match: https}`. -/
structure RouteHeader where
  name : String
  exact_match : Option String
deriving DecidableEq, Repr

/-- The `match` sub-dict of a route: the code reads
`match.get("prefix", None)`, `match.get("safe_regex", {}).get("regex", None)`
and `match.get("headers", [])`.  `safe_regex` here stands for the nested
`safe_regex.regex` string. -/
structure RouteMatch where
  pfx : Option String
  safe_regex : Option String
  headers : List RouteHeader
deriving DecidableEq, Repr

/-- The `redirect` payload written by the code is `{https_redirect: True}`. -/
structure RedirectAction where
  https_redirect : Bool
deriving DecidableEq, Repr

/-- A dictified v3 route (`DictifiedV3Route`).  `route` is the target/cluster
payload (opaque for our purposes), `sni` and `prec` are the bookkeeping keys
`_sni` and `_precedence` that `generate` pops off. -/
structure V3Route where
  rmatch : RouteMatch
  route : Option String
  redirect : Option RedirectAction
  sni : Option String
  prec : Option Int
deriving DecidableEq, Repr

/-- The literal ACME challenge prefix tested at v3listener.py:767. -/
def acmePfx : String := "/.well-known/acme-challenge/"

/-- `insecure_route = dict(c_route)` followed by popping `_sni` and
`_precedence` (v3listener.py:703-705). -/
def insecure_route (c : V3Route) : V3Route :=
  { c with sni := none, prec := none }

/-- The header appended to the secure variant (v3listener.py:731-734). -/
def xfpHeader : RouteHeader :=
  { name := "x-forwarded-proto", exact_match := some "https" }

/-- The `found_xfp` scan (v3listener.py:717-721): any header whose
lower-cased `name` is `x-forwarded-proto`. -/
def hasXfpHeader (hs : List RouteHeader) : Bool :=
  hs.any (fun h => h.name.toLower = "x-forwarded-proto")

/-- `secure_route = dict(insecure_route)` plus, when no `x-forwarded-proto`
header matcher is present, a fresh copy of the match with the
`x-forwarded-proto: https` guard appended (v3listener.py:715-734). -/
def secure_route (c : V3Route) : V3Route :=
  let i := insecure_route c
  if hasXfpHeader i.rmatch.headers then i
  else { i with rmatch := { i.rmatch with headers := i.rmatch.headers ++ [xfpHeader] } }

/-- `redirect_route = dict(insecure_route)`, `route` popped, `redirect`
set to an HTTPS redirect (v3listener.py:737-741). -/
def redirect_route (c : V3Route) : V3Route :=
  let i := insecure_route c
  { i with route := none, redirect := some { https_redirect := true } }

/-- A `V3VirtualHost` as far as this file manipulates it: `_name`,
`_hostname`, `_ctx` (context identity), `_secure`, `_action`,
`_insecure_action` and the accumulated `routes` list. -/
structure V3VirtualHost where
  vname : String
  hostname : String
  ctx : Option Nat
  secure : Bool
  action : Option String
  insecure_action : Option String
  routes : List V3Route
deriving DecidableEq, Repr

/-- The candidate list of v3listener.py:753-762: a secure candidate when the
vhost has a secure action, then either the redirect candidate (when the
insecure action is `Redirect`) or the insecure candidate (when the insecure
action is present). -/
def candidates (v : V3VirtualHost) (sec ins red : V3Route) :
    List (Bool × V3Route × String) :=
  (match v.action with
   | some a => [(true, sec, a)]
   | none => []) ++
  (match v.insecure_action with
   | some ia => if ia = "Redirect" then [(false, red, "Redirect")] else [(false, ins, ia)]
   | none => [])

/-- The per-candidate body of the matcher loop (v3listener.py:764-810):
ACME hole-punch first, then the host-mismatch reject, then the Edge-Stack
fallback-mapping override, then the plain accept-unless-Reject step.
Returns the route appended to the vhost, or `none` when dropped. -/
def resolve_candidate (edge_stack : Bool) (route_hosts : List String)
    (route_prec : Option Int) (sec ins : V3Route) (vhostname : String) :
    Bool × V3Route × String → Option V3Route
  | (secure, route, action) =>
    if route.rmatch.pfx = some acmePfx then
      some (if secure then sec else ins)
    else if "*" ∉ route_hosts ∧ vhostname ≠ "*" ∧ vhostname ∉ route_hosts then
      none
    else if edge_stack = true ∧ route_prec = some (-1000000) ∧
        route.rmatch.safe_regex = some "^/$" then
      some ins
    else if action = "Reject" then
      none
    else
      some route

/-- The routes appended to one vhost for one canonical route `c`
(the body of the per-vhost loop at v3listener.py:747-810). -/
def routes_for_vhost (edge_stack : Bool) (route_hosts : List String)
    (c : V3Route) (v : V3VirtualHost) : List V3Route :=
  (candidates v (secure_route c) (insecure_route c) (redirect_route c)).filterMap
    (resolve_candidate edge_stack route_hosts c.prec
      (secure_route c) (insecure_route c) v.hostname)

/-- Lower-cased character list of a string (hostnames compare
case-insensitively in wildcard-DNS matching). -/
def lchars (s : String) : List Char := s.data.map Char.toLower

/-- Modelled from the spec: the Host-Glob Matcher of §4.1 is not part of the
source file (it lives in the routes' host-constraint machinery, outside
src/).  Pattern `*` matches everything; a pattern with a single leading
wildcard segment matches hostnames sharing the remaining suffix,
case-insensitively; otherwise exact literal match, case-insensitively. -/
def hostglob_matches (pat host : String) : Bool :=
  if pat = "*" then true
  else if pat.data.take 2 = ['*', '.'] then
    decide ((lchars pat).drop 1 <:+ lchars host)
  else
    decide (lchars pat = lchars host)

/-- Association-list lookup, standing in for Python dict lookup
(`d.get(k)` / `k in d`); insertion order is kept by the list. -/
def afind {κ α : Type} [DecidableEq κ] (k : κ) : List (κ × α) → Option α
  | [] => none
  | e :: rest => if e.1 = k then some e.2 else afind k rest

/-- Association-list update at an existing key, standing in for in-place
mutation of the value stored under `k` (the entry keeps its position). -/
def aset {κ α : Type} [DecidableEq κ] (k : κ) (v : α) :
    List (κ × α) → List (κ × α)
  | [] => []
  | e :: rest => if e.1 = k then (k, v) :: rest else e :: aset k v rest

/-- A `V3Listener` as far as vhost bookkeeping goes: port, name,
`use_proxy_proto`, the hostname-keyed vhost dict (insertion-ordered), and
`first_vhost`, stored as the dict key of the first-registered vhost (in the
source it is an object reference; the referenced object is the entry stored
under that key, which is never re-keyed). -/
structure V3Listener where
  port : Nat
  lname : String
  use_proxy_proto : Bool
  vhosts : List (String × V3VirtualHost)
  first_vhost : Option String
deriving DecidableEq, Repr

/-- `V3Listener.__init__` (v3listener.py:154-176): fresh listener for a
port, `use_proxy_proto` defaulting to `False`, no vhosts. -/
def V3Listener.init (port : Nat) : V3Listener :=
  { port, lname := "ambassador-listener-" ++ toString port,
    use_proxy_proto := false, vhosts := [], first_vhost := none }

/-- `V3Listener.make_vhost` (v3listener.py:450-475): look the hostname up in
the vhost dict; if present, fail when hostname, context, secure flag, secure
action or insecure action disagree with the stored vhost, and no-op when
they all agree; if absent, create the vhost under the hostname key and
record it as `first_vhost` when it is the first. -/
def make_vhost (L : V3Listener) (name hostname : String) (context : Option Nat)
    (secure : Bool) (action : Option String) (insecure_action : Option String) :
    Except String V3Listener :=
  match afind hostname L.vhosts with
  | some vh =>
    if hostname ≠ vh.hostname ∨ context ≠ vh.ctx ∨ secure ≠ vh.secure ∨
        action ≠ vh.action ∨ insecure_action ≠ vh.insecure_action then
      Except.error ("V3Listener " ++ L.lname ++ ": trying to make vhost " ++ name ++
        " for " ++ hostname ++ " but one already exists")
    else
      Except.ok L
  | none =>
    let vh : V3VirtualHost :=
      { vname := name, hostname, ctx := context, secure, action,
        insecure_action, routes := [] }
    Except.ok
      { L with
        vhosts := L.vhosts ++ [(hostname, vh)],
        first_vhost := match L.first_vhost with
          | some k => some k
          | none => some hostname }

/-- `V3ListenerCollection`: the port-keyed listener dict
(v3listener.py:119-150). -/
structure V3ListenerCollection where
  listeners : List (Nat × V3Listener)
deriving DecidableEq, Repr

/-- `V3ListenerCollection.__getitem__` (v3listener.py:124-131): return the
listener for the port, creating a fresh one on a miss. -/
def coll_item (c : V3ListenerCollection) (port : Nat) :
    V3ListenerCollection × V3Listener :=
  match afind port c.listeners with
  | some L => (c, L)
  | none =>
    let L := V3Listener.init port
    ({ listeners := c.listeners ++ [(port, L)] }, L)

/-- `V3ListenerCollection.get` (v3listener.py:139-150): note whether the port
was absent, fetch-or-create via `__getitem__`, then either stamp the
requested `use_proxy_proto` onto the new listener or fail when an existing
listener's flag disagrees. -/
def coll_get (c : V3ListenerCollection) (port : Nat) (use_proxy_proto : Bool) :
    Except String (V3ListenerCollection × V3Listener) :=
  let set_upp := (afind port c.listeners).isNone
  let (c2, L) := coll_item c port
  if set_upp then
    let L2 := { L with use_proxy_proto }
    Except.ok ({ listeners := aset port L2 c2.listeners }, L2)
  else if L.use_proxy_proto ≠ use_proxy_proto then
    Except.error ("listener for port " ++ toString port ++
      " has a conflicting use_proxy_proto")
  else
    Except.ok (c2, L)

/-- The fields of an `IRListener` that `V3Listener.generate` reads. -/
structure IRListener where
  irname : String
  hostname : Option String
  service_port : Nat
  use_proxy_proto : Bool
  context : Option Nat
  secure_action : Option String
  insecure_action : Option String
  insecure_addl_port : Option Int
deriving DecidableEq, Repr

/-- `V3Listener.add_irlistener` (v3listener.py:438-447): fail when the
IRListener is for the wrong port, or when its (possibly absent) hostname is
already a vhost key on this listener (`None` is never a dict key). -/
def add_irlistener (L : V3Listener) (ir : IRListener) : Except String Unit :=
  if ir.service_port ≠ L.port then
    Except.error ("V3Listener " ++ L.lname ++ ": trying to add listener " ++
      ir.irname ++ " on the wrong port")
  else if (match ir.hostname with
           | some h => (afind h L.vhosts).isSome
           | none => false) then
    Except.error ("V3Listener " ++ L.lname ++ ": listener " ++ ir.irname ++
      " already has a vhost")
  else
    Except.ok ()

/-- The configuration inputs `generate` consumes.  `routes` pairs each
canonical route with its host-constraint set, since
`c_route.host_constraints(...)` lives outside this source file.
`service_port` is `ir.ambassador_module.service_port`. -/
structure V3Config where
  ir_listeners : List IRListener
  routes : List (V3Route × List String)
  edge_stack_allowed : Bool
  agent_active : Bool
  service_port : Nat
deriving DecidableEq, Repr

/-- The per-IRListener body of the first loop of `generate`
(v3listener.py:611-648), threading the listener collection and the
`first_irlistener_by_port` dict. -/
def process_irlistener
    (st : V3ListenerCollection × List (Nat × IRListener)) (ir : IRListener) :
    Except String (V3ListenerCollection × List (Nat × IRListener)) := do
  let (coll, firsts) := st
  let firsts :=
    if (afind ir.service_port firsts).isSome then firsts
    else firsts ++ [(ir.service_port, ir)]
  let (coll, L) ← coll_get coll ir.service_port ir.use_proxy_proto
  let () ← add_irlistener L ir
  let vhostname := ir.hostname.getD "*"
  let L ← make_vhost L vhostname vhostname ir.context true
            ir.secure_action ir.insecure_action
  let coll : V3ListenerCollection := { listeners := aset ir.service_port L coll.listeners }
  match ir.insecure_addl_port with
  | some p =>
    if p > 0 then do
      let port2 := p.toNat
      let (coll, L2) ← coll_get coll port2 ir.use_proxy_proto
      let firsts :=
        if (afind port2 firsts).isSome then firsts
        else firsts ++ [(port2, ir)]
      if (afind vhostname L2.vhosts).isNone then
        let L2 ← make_vhost L2 vhostname vhostname none false none
                  ir.insecure_action
        pure ({ listeners := aset port2 L2 coll.listeners }, firsts)
      else
        pure (coll, firsts)
    else
      pure (coll, firsts)
  | none => pure (coll, firsts)

/-- The force-a-star-vhost pass of `generate` (v3listener.py:655-662): when a
listener has no `*` vhost, the first-registered vhost has its hostname
coerced to `*` and its name suffixed `-forced-star` (in place: its dict key
does not change).  The `assert listener.first_vhost` is modelled as an
error. -/
def force_star (L : V3Listener) : Except String V3Listener :=
  if (afind "*" L.vhosts).isSome then
    Except.ok L
  else
    match L.first_vhost with
    | none => Except.error "assertion failed: listener.first_vhost"
    | some k =>
      match afind k L.vhosts with
      | none => Except.error "assertion failed: listener.first_vhost"
      | some vh =>
        Except.ok
          { L with
            vhosts := aset k
              { vh with hostname := "*", vname := vh.vname ++ "-forced-star" }
              L.vhosts }

/-- The Edge-Stack ACME pass of `generate` (v3listener.py:664-687): in
edge-stack mode, when not an intercept agent and no listener exists on port
8080, force one (proxy-proto taken from the first IRListener seen on the
ambassador service port) with a catch-all vhost whose insecure action is
`Reject`. -/
def force_acme_listener (cfg : V3Config)
    (coll : V3ListenerCollection) (firsts : List (Nat × IRListener)) :
    Except String V3ListenerCollection := do
  if cfg.edge_stack_allowed ∧ cfg.agent_active = false ∧
      (afind 8080 coll.listeners).isNone then
    let use_proxy_proto :=
      match afind cfg.service_port firsts with
      | some ir => ir.use_proxy_proto
      | none => false
    let (coll, L) ← coll_get coll 8080 use_proxy_proto
    let L ← make_vhost L "forced-8080" "*" none false none (some "Reject")
    pure { listeners := aset 8080 L coll.listeners }
  else
    pure coll

/-- One iteration of the route-matching loop of `generate`
(v3listener.py:692-810), applied to every vhost of every listener. -/
def apply_route (edge_stack : Bool) (coll : V3ListenerCollection)
    (crh : V3Route × List String) : V3ListenerCollection :=
  { listeners := coll.listeners.map (fun pL =>
      (pL.1,
       { pL.2 with
         vhosts := pL.2.vhosts.map (fun kv =>
           (kv.1,
            { kv.2 with
              routes := kv.2.routes ++
                routes_for_vhost edge_stack crh.2 crh.1 kv.2 })) })) }

/-- `V3Listener.generate` (v3listener.py:590-814) up to (and excluding)
listener finalization: walk the IRListeners, force the catch-all vhosts,
force the Edge-Stack 8080 listener, then populate every vhost's route
list. -/
def generate (cfg : V3Config) : Except String V3ListenerCollection := do
  let (coll, firsts) ← cfg.ir_listeners.foldlM process_irlistener
    ({ listeners := [] }, [])
  let starred ← coll.listeners.mapM (fun pL => do
    let L ← force_star pL.2
    pure (pL.1, L))
  let coll ← force_acme_listener cfg { listeners := starred } firsts
  pure (cfg.routes.foldl (apply_route cfg.edge_stack_allowed) coll)

/-- Python scalar values as far as the `header_case_overrides` validation
looks at them; every non-string entry of the overrides list is handled
identically (`isinstance(hdr, str)` fails), so scalars suffice for list
entries. -/
inductive PyScalar where
  | vnone
  | vbool (b : Bool)
  | vint (n : Int)
  | vstr (s : String)
deriving DecidableEq, Repr

/-- The untyped `header_case_overrides` setting from the Ambassador module:
a scalar or a list. -/
inductive PyVal where
  | scalar (v : PyScalar)
  | vlist (l : List PyScalar)
deriving DecidableEq, Repr

/-- Python truthiness for the values above (`if header_case_overrides:`). -/
def PyVal.truthy : PyVal → Bool
  | .scalar .vnone => false
  | .scalar (.vbool b) => b
  | .scalar (.vint n) => decide (n ≠ 0)
  | .scalar (.vstr s) => decide (s ≠ "")
  | .vlist l => decide (l ≠ [])

/-- The `http_protocol_options.header_key_format` value that
`base_http_config` can emit: either the custom lowercase-to-original rules
table or `proper_case_words`. -/
inductive HeaderKeyFormat where
  | custom (rules : List (String × String))
  | proper_case_words
deriving DecidableEq, Repr

/-- Diagnostic tags for the three `post_error` calls of the header-case
logic (the exact message text is immaterial to the claims). -/
def conflictMsg : String := "only one of proper_case or header_case_overrides may be set"

/-- Diagnostic for a non-array `header_case_overrides`. -/
def notArrayMsg : String := "header_case_overrides must be an array"

/-- Diagnostic for a non-string entry (posted once per such entry). -/
def skipNonStrMsg : String := "skipping non-string header in header_case_overrides"

/-- Diagnostic when no valid string entry was found. -/
def noValidMsg : String := "could not parse any valid string headers in header_case_overrides"

/-- The string entries of a list value, in order. -/
def strEntries : List PyScalar → List String
  | [] => []
  | .vstr s :: rest => s :: strEntries rest
  | _ :: rest => strEntries rest

/-- One `post_error` per non-string entry. -/
def skipErrs : List PyScalar → List String
  | [] => []
  | .vstr _ :: rest => skipErrs rest
  | _ :: rest => skipNonStrMsg :: skipErrs rest

/-- The header-case portion of `V3Listener.base_http_config`
(v3listener.py:377-434): the proper-case/overrides conflict check, the
array/emptiness checks, the per-entry string filter, and the final
`header_key_format` written into `http_protocol_options` (the `proper_case`
branch overwrites whatever the overrides branch produced).  Returns the
posted diagnostics and the resulting `header_key_format`. -/
def header_case_pass (proper_case : Bool) (hco0 : PyVal) :
    List String × Option HeaderKeyFormat :=
  let st1 : List String × PyVal :=
    if hco0.truthy then
      let (e1, h1) :=
        if proper_case then ([conflictMsg], PyVal.scalar PyScalar.vnone)
        else ([], hco0)
      match h1 with
      | PyVal.vlist l =>
        if l.length = 0 then (e1, PyVal.scalar PyScalar.vnone) else (e1, h1)
      | _ => (e1 ++ [notArrayMsg], PyVal.scalar PyScalar.vnone)
    else
      ([], hco0)
  let errs := st1.1
  let hco := st1.2
  let st2 : List String × Option HeaderKeyFormat :=
    if hco.truthy then
      match hco with
      | PyVal.vlist l =>
        let rules := strEntries l
        if rules = [] then
          (errs ++ skipErrs l ++ [noValidMsg], none)
        else
          (errs ++ skipErrs l,
           some (HeaderKeyFormat.custom (rules.map (fun h => (h.toLower, h)))))
      | _ => (errs, none)
    else
      (errs, none)
  if proper_case then (st2.1, some HeaderKeyFormat.proper_case_words) else st2

/-- One weighted mapping of a TCP mapping group: the code reads
`mapping.cluster.envoy_name` and `mapping.weight`. -/
structure TCPMapping where
  cluster_envoy_name : String
  weight : Nat
deriving DecidableEq, Repr

/-- The fields of an `IRTCPMappingGroup` that this file reads.  The TLS
context is represented by its identity (the `V3TLSContext` transform is an
external pure adapter). -/
structure IRTCPMappingGroup where
  address : Option String
  port : Nat
  host : Option String
  tls_context : Option Nat
  mappings : List TCPMapping
deriving DecidableEq, Repr

/-- `group.get('address') or '0.0.0.0'` (falsy ⇒ default). -/
def group_bind_address (g : IRTCPMappingGroup) : String :=
  match g.address with
  | some a => if a = "" then "0.0.0.0" else a
  | none => "0.0.0.0"

/-- Modelled from the spec: `IRTCPMappingGroup.bind_to` is not part of this
source file; per §3, a TCP mapping group's identity is its bind endpoint
(address + port). -/
def bind_to (g : IRTCPMappingGroup) : String :=
  group_bind_address g ++ "-" ++ toString g.port

/-- One entry of a TCP listener's `filter_chains`: the weighted clusters of
its `tcp_proxy` filter (whose `stat_prefix` carries the group port), the
optional downstream-TLS transport socket (by context identity), and the
optional `filter_chain_match.server_names`. -/
structure TCPChainEntry where
  clusters : List (String × Nat)
  stat_port : Nat
  transport_socket : Option Nat
  server_names : Option (List String)
deriving DecidableEq, Repr

/-- A `V3TCPListener`: built by `__init__` from the first group at its bind
endpoint (v3listener.py:37-67); `tls_context` and the TLS-inspector
listener filter are decided there, once. -/
structure V3TCPListener where
  bind_address : String
  port : Nat
  tname : String
  tls_context : Option Nat
  tls_inspector : Bool
  filter_chains : List TCPChainEntry
deriving DecidableEq, Repr

/-- `V3TCPListener.__init__` (v3listener.py:37-67). -/
def V3TCPListener.init (g : IRTCPMappingGroup) : V3TCPListener :=
  let ba := group_bind_address g
  { bind_address := ba, port := g.port,
    tname := "listener-" ++ ba ++ "-" ++ toString g.port,
    tls_context := g.tls_context,
    tls_inspector := g.tls_context.isSome,
    filter_chains := [] }

/-- `V3TCPListener.add_group` (v3listener.py:69-116): one chain entry per
group, with one weighted cluster per mapping; the transport socket and the
SNI chain match are gated on the listener's `tls_context` (the first
group's), the SNI host being the group's own `group.get('host') or '*'`. -/
def add_group (tl : V3TCPListener) (g : IRTCPMappingGroup) : V3TCPListener :=
  let clusters := g.mappings.map (fun m => (m.cluster_envoy_name, m.weight))
  let entry0 : TCPChainEntry :=
    { clusters, stat_port := g.port, transport_socket := none,
      server_names := none }
  let entry :=
    match tl.tls_context with
    | some ctx =>
      let e1 := { entry0 with transport_socket := some ctx }
      let host_wanted :=
        match g.host with
        | some h => if h = "" then "*" else h
        | none => "*"
      if host_wanted ≠ "*" then { e1 with server_names := some [host_wanted] }
      else e1
    | none => entry0
  { tl with filter_chains := tl.filter_chains ++ [entry] }

/-- One iteration of the TCP loop of `generate` (v3listener.py:826-848):
fetch-or-create the listener for the group's bind endpoint, then
`add_group`. -/
def tcp_step (acc : List (String × V3TCPListener)) (g : IRTCPMappingGroup) :
    List (String × V3TCPListener) :=
  match afind (bind_to g) acc with
  | some tl => aset (bind_to g) (add_group tl g) acc
  | none => acc ++ [(bind_to g, add_group (V3TCPListener.init g) g)]

/-- The whole TCP pass: the `tcplisteners` dict after walking the ordered
TCP mapping groups. -/
def generate_tcp (groups : List IRTCPMappingGroup) :
    List (String × V3TCPListener) :=
  groups.foldl tcp_step []

/-- The chain entry `add_group` produces for group `g` on a listener whose
TLS context is `ctx` (used to state what `generate_tcp` builds). -/
def mk_chain (ctx : Option Nat) (g : IRTCPMappingGroup) : TCPChainEntry :=
  let entry0 : TCPChainEntry :=
    { clusters := g.mappings.map (fun m => (m.cluster_envoy_name, m.weight)),
      stat_port := g.port, transport_socket := none, server_names := none }
  match ctx with
  | some c =>
    let e1 := { entry0 with transport_socket := some c }
    let host_wanted :=
      match g.host with
      | some h => if h = "" then "*" else h
      | none => "*"
    if host_wanted ≠ "*" then { e1 with server_names := some [host_wanted] }
    else e1
  | none => entry0

/-- Heap values for the aliasing-aware embedding of the variant-building
block: primitives, or references to heap objects. -/
inductive HVal where
  | str (s : String)
  | bool (b : Bool)
  | int (n : Int)
  | ref (a : Nat)
deriving DecidableEq, Repr

/-- Heap objects: Python dicts (ordered key-value entries) and lists. -/
inductive HObj where
  | dict (entries : List (String × HVal))
  | list (elems : List HVal)
deriving DecidableEq, Repr

/-- A heap is a list of objects; the address of an object is its index,
allocation appends. -/
abbrev Heap : Type := List HObj

/-- Allocate a fresh object, returning its address. -/
def halloc (h : Heap) (o : HObj) : Heap × Nat := (h ++ [o], h.length)

/-- Read the object at an address. -/
def hget (h : Heap) (a : Nat) : Option HObj := h[a]?

/-- Overwrite the object at an address (in-place mutation). -/
def hset (h : Heap) (a : Nat) (o : HObj) : Heap := h.set a o

/-- The entries of the dict at an address (empty when the address does not
hold a dict). -/
def dentries (h : Heap) (a : Nat) : List (String × HVal) :=
  match hget h a with
  | some (HObj.dict es) => es
  | _ => []

/-- The elements of the list object at an address. -/
def lelems (h : Heap) (a : Nat) : List HVal :=
  match hget h a with
  | some (HObj.list es) => es
  | _ => []

/-- `d.get(k)` on the dict at address `a`. -/
def dget (h : Heap) (a : Nat) (k : String) : Option HVal :=
  afind k (dentries h a)

/-- Dict entry removal (`d.pop(k, None)`). -/
def entries_del (k : String) (es : List (String × HVal)) :
    List (String × HVal) :=
  es.filter (fun e => e.1 ≠ k)

/-- Dict entry assignment (`d[k] = v`): keeps the position of an existing
key, appends a new one. -/
def entries_set (k : String) (v : HVal) (es : List (String × HVal)) :
    List (String × HVal) :=
  if (afind k es).isSome then aset k v es else es ++ [(k, v)]

/-- The `found_xfp` scan of v3listener.py:717-721, at heap level: walk the
header refs, reading each header dict's `name`. -/
def heap_found_xfp (h : Heap) (headerRefs : List HVal) : Bool :=
  headerRefs.any (fun v =>
    match v with
    | HVal.ref hd =>
      (match dget h hd "name" with
       | some (HVal.str s) => s.toLower
       | _ => "") = "x-forwarded-proto"
    | _ => false)

/-- Stage 1 of the variant-building block (v3listener.py:703-705):
`insecure_route = dict(c_route)`, then pop `_sni` and `_precedence` in
place.  Returns the heap and the address of `insecure_route`. -/
def bv_insecure (h0 : Heap) (r : Nat) : Heap × Nat :=
  let (h1, ir) := halloc h0 (HObj.dict (dentries h0 r))
  let h2 := hset h1 ir (HObj.dict (entries_del "_sni" (dentries h1 ir)))
  let h3 := hset h2 ir (HObj.dict (entries_del "_precedence" (dentries h2 ir)))
  (h3, ir)

/-- Stage 2 (v3listener.py:715): `secure_route = dict(insecure_route)` —
a fresh top-level dict sharing every nested object. -/
def bv_secure (h3 : Heap) (ir : Nat) : Heap × Nat :=
  halloc h3 (HObj.dict (dentries h3 ir))

/-- Stage 3 (v3listener.py:717-734): the `found_xfp` scan over
`secure_route["match"].get("headers", [])`, and, when the guard is absent,
the copy-on-write rewrite: copy the match dict, repoint
`secure_route["match"]` at the copy, copy the headers list, repoint the
copy's `headers`, and append a fresh guard header dict to the copied list.
Only freshly allocated objects and `secure_route` itself are written. -/
def bv_xfp_fix (h4 : Heap) (sr : Nat) : Heap :=
  let mref : Option Nat :=
    match dget h4 sr "match" with
    | some (HVal.ref m) => some m
    | _ => none
  let headerRefs : List HVal :=
    match mref with
    | some m =>
      match dget h4 m "headers" with
      | some (HVal.ref hl) => lelems h4 hl
      | _ => []
    | none => []
  if heap_found_xfp h4 headerRefs then h4
  else
    match mref with
    | some m =>
      let (ha, mc) := halloc h4 (HObj.dict (dentries h4 m))
      let hb := hset ha sr
        (HObj.dict (entries_set "match" (HVal.ref mc) (dentries ha sr)))
      let elems :=
        match dget hb mc "headers" with
        | some (HVal.ref hl) => lelems hb hl
        | _ => []
      let (hc, hcAddr) := halloc hb (HObj.list elems)
      let hd := hset hc mc
        (HObj.dict (entries_set "headers" (HVal.ref hcAddr) (dentries hc mc)))
      let (he, guard) := halloc hd (HObj.dict
        [("name", HVal.str "x-forwarded-proto"),
         ("exact_match", HVal.str "https")])
      hset he hcAddr (HObj.list (lelems he hcAddr ++ [HVal.ref guard]))
    | none =>
      -- a route with no match dict would raise in Python before reaching
      -- here; no heap effect in the embedding
      h4

/-- Stage 4 (v3listener.py:737-741): `redirect_route = dict(insecure_route)`,
pop `route` in place, allocate the `{https_redirect: True}` dict and hook it
under `redirect`.  Returns the heap and the address of `redirect_route`. -/
def bv_redirect (h5 : Heap) (ir : Nat) : Heap × Nat :=
  let (h6, rr) := halloc h5 (HObj.dict (dentries h5 ir))
  let h7 := hset h6 rr (HObj.dict (entries_del "route" (dentries h6 rr)))
  let (h8, rd) := halloc h7 (HObj.dict [("https_redirect", HVal.bool true)])
  let h9 := hset h8 rr
    (HObj.dict (entries_set "redirect" (HVal.ref rd) (dentries h8 rr)))
  (h9, rr)

/-- The variant-building block of `generate` (v3listener.py:702-741) with
Python aliasing made explicit: `dict(...)` and `list(...)` are shallow
copies (fresh top-level objects whose entries still reference the shared
nested objects), `pop`/assignment/`append` are in-place writes.  Starting
from the canonical route dict at address `r`, returns the final heap and
the addresses of `insecure_route`, `secure_route` and `redirect_route`. -/
def build_variants (h0 : Heap) (r : Nat) : Heap × Nat × Nat × Nat :=
  let (h3, ir) := bv_insecure h0 r
  let (h4, sr) := bv_secure h3 ir
  let h5 := bv_xfp_fix h4 sr
  let (h6, rr) := bv_redirect h5 ir
  (h6, ir, sr, rr)

/-- Bookkeeping invariant of the assembly phase: every vhost record's
hostname equals its dict key, and the keys are duplicate-free (as for a
Python dict). -/
def keys_hostnames (L : V3Listener) : Prop :=
  (∀ e ∈ L.vhosts, e.2.hostname = e.1) ∧ (L.vhosts.map Prod.fst).Nodup

/-- The number of vhosts of a listener whose hostname is the catch-all
`*`. -/
def star_count (L : V3Listener) : Nat :=
  (L.vhosts.filter (fun e => e.2.hostname = "*")).length

/-- Invariant of the TCP fold: after processing the groups `pre`, the
`tcplisteners` dict `acc` has duplicate-free keys, holds a listener for
exactly the bind endpoints of `pre`, and each listener carries the identity
and TLS context of the *first* group at its endpoint together with one chain
entry per group at that endpoint, in order. -/
def TCPInv (pre : List IRTCPMappingGroup)
    (acc : List (String × V3TCPListener)) : Prop :=
  ((acc.map Prod.fst).Nodup) ∧
  (∀ g ∈ pre, (afind (bind_to g) acc).isSome) ∧
  (∀ k, afind k acc = none → ∀ g ∈ pre, bind_to g ≠ k) ∧
  (∀ k tl, afind k acc = some tl →
    ∃ g0, pre.find? (fun g => bind_to g = k) = some g0 ∧
      tl.bind_address = group_bind_address g0 ∧
      tl.port = g0.port ∧
      tl.tname = "listener-" ++ group_bind_address g0 ++ "-" ++
        toString g0.port ∧
      tl.tls_context = g0.tls_context ∧
      tl.tls_inspector = g0.tls_context.isSome ∧
      tl.filter_chains =
        (pre.filter (fun g => bind_to g = k)).map (mk_chain g0.tls_context))

/-- Heap preservation below a watermark `n`: the heap only grew, and every
address below `n` still holds exactly what it held in `h`. -/
def hpres (n : Nat) (h h2 : Heap) : Prop :=
  n ≤ h2.length ∧ ∀ a, a < n → h2[a]? = h[a]?

/-! ### Theorems -/

theorem rmatch_insecure_route (c : V3Route) :
    (insecure_route c).rmatch = c.rmatch := rfl

theorem pfx_secure_route (c : V3Route) :
    (secure_route c).rmatch.pfx = c.rmatch.pfx := by
  unfold secure_route
  dsimp only
  split <;> rfl

theorem safe_regex_secure_route (c : V3Route) :
    (secure_route c).rmatch.safe_regex = c.rmatch.safe_regex := by
  unfold secure_route
  dsimp only
  split <;> rfl

theorem rmatch_redirect_route (c : V3Route) :
    (redirect_route c).rmatch = c.rmatch := rfl

theorem hostglob_matches_self (s : String) : hostglob_matches s s = true := by
  unfold hostglob_matches
  split
  · rfl
  · split
    · simpa using List.drop_suffix 1 (lchars s)
    · simp

theorem not_mem_of_no_glob {rh : List String} {hn : String}
    (h : ∀ p ∈ rh, hostglob_matches p hn = false) : hn ∉ rh := by
  intro hmem
  have := h hn hmem
  rw [hostglob_matches_self] at this
  exact absurd this (by simp)

/-- C1 (amended): for a rule whose match prefix is the literal ACME
challenge prefix, every candidate of every vhost is appended (action forced
to `Route`, overriding Reject/Redirect), and the appended payload is the
non-redirect variant matching the candidate's side: the secure variant for
secure candidates, the insecure variant for insecure candidates. -/
theorem acme_override_appends_all_candidates (edge_stack : Bool)
    (route_hosts : List String) (c : V3Route) (v : V3VirtualHost)
    (hpfx : c.rmatch.pfx = some acmePfx) :
    routes_for_vhost edge_stack route_hosts c v =
      (candidates v (secure_route c) (insecure_route c) (redirect_route c)).map
        (fun cand => if cand.1 then secure_route c else insecure_route c) ∧
    (candidates v (secure_route c) (insecure_route c) (redirect_route c) ≠ [] →
      routes_for_vhost edge_stack route_hosts c v ≠ []) := by
  have hmain : routes_for_vhost edge_stack route_hosts c v =
      (candidates v (secure_route c) (insecure_route c) (redirect_route c)).map
        (fun cand => if cand.1 then secure_route c else insecure_route c) := by
    rcases hA : v.action with _ | a <;> rcases hI : v.insecure_action with _ | ia
    all_goals try by_cases hR : ia = "Redirect"
    all_goals first
      | simp [routes_for_vhost, candidates, hA, hI, hR, resolve_candidate,
          pfx_secure_route, rmatch_insecure_route, rmatch_redirect_route, hpfx]
      | simp [routes_for_vhost, candidates, hA, hI, resolve_candidate,
          pfx_secure_route, rmatch_insecure_route, rmatch_redirect_route, hpfx]
  refine ⟨hmain, fun hne => ?_⟩
  rw [hmain]
  simpa using hne

/-- C1 witness: the amended theorem applied at a vhost carrying both a
secure action and a redirecting insecure action. -/
theorem acme_override_appends_all_candidates_witness :
    routes_for_vhost false ["example.com"]
      { rmatch := { pfx := some "/.well-known/acme-challenge/",
                    safe_regex := none, headers := [] },
        route := some "acme-cluster", redirect := none, sni := none, prec := none }
      { vname := "vh", hostname := "other.org", ctx := none, secure := true,
        action := some "Route", insecure_action := some "Redirect", routes := [] } =
      (candidates
        { vname := "vh", hostname := "other.org", ctx := none, secure := true,
          action := some "Route", insecure_action := some "Redirect", routes := [] }
        (secure_route
          { rmatch := { pfx := some "/.well-known/acme-challenge/",
                        safe_regex := none, headers := [] },
            route := some "acme-cluster", redirect := none, sni := none, prec := none })
        (insecure_route
          { rmatch := { pfx := some "/.well-known/acme-challenge/",
                        safe_regex := none, headers := [] },
            route := some "acme-cluster", redirect := none, sni := none, prec := none })
        (redirect_route
          { rmatch := { pfx := some "/.well-known/acme-challenge/",
                        safe_regex := none, headers := [] },
            route := some "acme-cluster", redirect := none, sni := none, prec := none })).map
        (fun cand => if cand.1 then
          secure_route
            { rmatch := { pfx := some "/.well-known/acme-challenge/",
                          safe_regex := none, headers := [] },
              route := some "acme-cluster", redirect := none, sni := none, prec := none }
          else
          insecure_route
            { rmatch := { pfx := some "/.well-known/acme-challenge/",
                          safe_regex := none, headers := [] },
              route := some "acme-cluster", redirect := none, sni := none, prec := none }) :=
  (acme_override_appends_all_candidates false ["example.com"] _ _ (by decide)).1

/-- C1 counterexample: on a vhost with a secure action, the ACME override
appends the secure variant (match extended with the `x-forwarded-proto:
https` guard), not the un-redirected insecure form claimed. -/
theorem acme_override_counterexample :
    routes_for_vhost false ["example.com"]
      { rmatch := { pfx := some "/.well-known/acme-challenge/",
                    safe_regex := none, headers := [] },
        route := some "acme-cluster", redirect := none, sni := none, prec := none }
      { vname := "secure-vh", hostname := "example.com", ctx := some 1,
        secure := true, action := some "Route", insecure_action := none,
        routes := [] } =
      [{ rmatch := { pfx := some "/.well-known/acme-challenge/",
                     safe_regex := none,
                     headers := [{ name := "x-forwarded-proto",
                                   exact_match := some "https" }] },
         route := some "acme-cluster", redirect := none, sni := none,
         prec := none }] ∧
    ¬ ({ rmatch := { pfx := some "/.well-known/acme-challenge/",
                     safe_regex := none,
                     headers := [{ name := "x-forwarded-proto",
                                   exact_match := some "https" }] },
         route := some "acme-cluster", redirect := none, sni := none,
         prec := none } : V3Route) =
      insecure_route
        { rmatch := { pfx := some "/.well-known/acme-challenge/",
                      safe_regex := none, headers := [] },
          route := some "acme-cluster", redirect := none, sni := none,
          prec := none } := by
  decide

/-- C2: when the rule's host-constraint set has no `*`, the vhost hostname
is not `*`, and no constraint glob-matches the vhost hostname, every
candidate is rejected and nothing is appended for this rule on this vhost
(the ACME case being excluded by hypothesis). -/
theorem host_mismatch_rejects_all (edge_stack : Bool)
    (route_hosts : List String) (c : V3Route) (v : V3VirtualHost)
    (hstar : "*" ∉ route_hosts) (hv : v.hostname ≠ "*")
    (hglob : ∀ p ∈ route_hosts, hostglob_matches p v.hostname = false)
    (hacme : c.rmatch.pfx ≠ some acmePfx) :
    routes_for_vhost edge_stack route_hosts c v = [] := by
  have hmem : v.hostname ∉ route_hosts := not_mem_of_no_glob hglob
  rcases hA : v.action with _ | a <;> rcases hI : v.insecure_action with _ | ia
  all_goals try by_cases hR : ia = "Redirect"
  all_goals first
    | simp [routes_for_vhost, candidates, hA, hI, hR, resolve_candidate,
        pfx_secure_route, rmatch_insecure_route, rmatch_redirect_route,
        hacme, hstar, hv, hmem]
    | simp [routes_for_vhost, candidates, hA, hI, resolve_candidate,
        pfx_secure_route, rmatch_insecure_route, rmatch_redirect_route,
        hacme, hstar, hv, hmem]

/-- C2 witness: a concrete mismatched vhost receives no route. -/
theorem host_mismatch_rejects_all_witness :
    routes_for_vhost true ["example.com", "*.example.net"]
      { rmatch := { pfx := some "/api/", safe_regex := none, headers := [] },
        route := some "cluster-b", redirect := none, sni := none, prec := none }
      { vname := "vh2", hostname := "other.org", ctx := none, secure := false,
        action := some "Route", insecure_action := some "Route", routes := [] }
      = [] :=
  host_mismatch_rejects_all true ["example.com", "*.example.net"] _ _
    (by decide) (by decide) (by decide) (by decide)

/-- C6: in edge-stack mode, a candidate of a rule at the reserved minimum
precedence sentinel whose match is the literal root safe-regex is forced to
`Route` with the un-redirected insecure variant, for every candidate of the
vhost (hence also when the insecure action is `Redirect` or `Reject`),
provided neither the ACME nor the host-mismatch override fires first. -/
theorem fallback_mapping_override (route_hosts : List String)
    (c : V3Route) (v : V3VirtualHost)
    (hprec : c.prec = some (-1000000))
    (hregex : c.rmatch.safe_regex = some "^/$")
    (hacme : c.rmatch.pfx ≠ some acmePfx)
    (hmm : ¬ ("*" ∉ route_hosts ∧ v.hostname ≠ "*" ∧ v.hostname ∉ route_hosts)) :
    routes_for_vhost true route_hosts c v =
      (candidates v (secure_route c) (insecure_route c) (redirect_route c)).map
        (fun _ => insecure_route c) := by
  rcases hA : v.action with _ | a <;> rcases hI : v.insecure_action with _ | ia
  all_goals try by_cases hR : ia = "Redirect"
  all_goals first
    | simp [routes_for_vhost, candidates, hA, hI, hR, resolve_candidate,
        pfx_secure_route, safe_regex_secure_route, rmatch_insecure_route,
        rmatch_redirect_route, hacme, hprec, hregex, hmm]
    | simp [routes_for_vhost, candidates, hA, hI, resolve_candidate,
        pfx_secure_route, safe_regex_secure_route, rmatch_insecure_route,
        rmatch_redirect_route, hacme, hprec, hregex, hmm]

/-- C6 witness: the fallback override applied to a vhost whose insecure
action is `Redirect`; both candidates become the insecure variant. -/
theorem fallback_mapping_override_witness :
    routes_for_vhost true ["*"]
      { rmatch := { pfx := none, safe_regex := some "^/$", headers := [] },
        route := some "fallback-cluster", redirect := none, sni := none,
        prec := some (-1000000) }
      { vname := "vh6", hostname := "example.com", ctx := some 2, secure := true,
        action := some "Route", insecure_action := some "Redirect", routes := [] } =
      (candidates
        { vname := "vh6", hostname := "example.com", ctx := some 2, secure := true,
          action := some "Route", insecure_action := some "Redirect", routes := [] }
        (secure_route
          { rmatch := { pfx := none, safe_regex := some "^/$", headers := [] },
            route := some "fallback-cluster", redirect := none, sni := none,
            prec := some (-1000000) })
        (insecure_route
          { rmatch := { pfx := none, safe_regex := some "^/$", headers := [] },
            route := some "fallback-cluster", redirect := none, sni := none,
            prec := some (-1000000) })
        (redirect_route
          { rmatch := { pfx := none, safe_regex := some "^/$", headers := [] },
            route := some "fallback-cluster", redirect := none, sni := none,
            prec := some (-1000000) })).map
        (fun _ => insecure_route
          { rmatch := { pfx := none, safe_regex := some "^/$", headers := [] },
            route := some "fallback-cluster", redirect := none, sni := none,
            prec := some (-1000000) }) :=
  fallback_mapping_override ["*"] _ _ (by decide) (by decide) (by decide)
    (by decide)

/-- C7: the matcher builds exactly the three variants described — the secure
variant adds the `x-forwarded-proto: https` header guard unless a header
matcher with that (case-insensitive) name is present, the insecure variant
keeps the original match unchanged, and the redirect variant keeps the match
but drops the `route` payload and installs an HTTPS redirect — and a vhost
with a non-absent secure action gets the secure variant as its secure
candidate while a vhost whose insecure action is `Redirect` gets the
redirect variant, not the original rule, as its insecure candidate. -/
theorem variant_construction (c : V3Route) (v : V3VirtualHost) :
    ((insecure_route c).rmatch = c.rmatch ∧
     (insecure_route c).route = c.route ∧
     (insecure_route c).redirect = c.redirect) ∧
    (secure_route c =
      (if hasXfpHeader c.rmatch.headers then insecure_route c
       else { insecure_route c with
              rmatch := { c.rmatch with
                          headers := c.rmatch.headers ++ [xfpHeader] } })) ∧
    (redirect_route c =
      { insecure_route c with
        route := none, redirect := some { https_redirect := true } }) ∧
    (∀ a, v.action = some a →
      (true, secure_route c, a) ∈
        candidates v (secure_route c) (insecure_route c) (redirect_route c)) ∧
    (v.insecure_action = some "Redirect" →
      (candidates v (secure_route c) (insecure_route c)
        (redirect_route c)).filter (fun t => !t.1) =
        [(false, redirect_route c, "Redirect")]) := by
  refine ⟨⟨rfl, rfl, rfl⟩, ?_, rfl, ?_, ?_⟩
  · unfold secure_route
    rfl
  · intro a hA
    rcases hI : v.insecure_action with _ | ia <;>
      simp [candidates, hA, hI]
  · intro hI
    rcases hA : v.action with _ | a <;>
      simp [candidates, hA, hI]

/-- C7 witness: the theorem applied to scenario A of the spec — a rule with
no pre-existing guard on a vhost with secure action `Route` and insecure
action `Redirect`. -/
theorem variant_construction_witness :
    ((insecure_route
        { rmatch := { pfx := some "/", safe_regex := none, headers := [] },
          route := some "cluster-a", redirect := none, sni := some "s",
          prec := none }).rmatch =
      ({ rmatch := { pfx := some "/", safe_regex := none, headers := [] },
         route := some "cluster-a", redirect := none, sni := some "s",
         prec := none } : V3Route).rmatch ∧
     (insecure_route
        { rmatch := { pfx := some "/", safe_regex := none, headers := [] },
          route := some "cluster-a", redirect := none, sni := some "s",
          prec := none }).route = some "cluster-a" ∧
     (insecure_route
        { rmatch := { pfx := some "/", safe_regex := none, headers := [] },
          route := some "cluster-a", redirect := none, sni := some "s",
          prec := none }).redirect = none) ∧
    (secure_route
        { rmatch := { pfx := some "/", safe_regex := none, headers := [] },
          route := some "cluster-a", redirect := none, sni := some "s",
          prec := none } =
      (if hasXfpHeader
          ({ rmatch := { pfx := some "/", safe_regex := none, headers := [] },
             route := some "cluster-a", redirect := none, sni := some "s",
             prec := none } : V3Route).rmatch.headers then
        insecure_route
          { rmatch := { pfx := some "/", safe_regex := none, headers := [] },
            route := some "cluster-a", redirect := none, sni := some "s",
            prec := none }
       else
        { insecure_route
            { rmatch := { pfx := some "/", safe_regex := none, headers := [] },
              route := some "cluster-a", redirect := none, sni := some "s",
              prec := none } with
          rmatch := { ({ rmatch := { pfx := some "/", safe_regex := none,
                                     headers := [] },
                         route := some "cluster-a", redirect := none,
                         sni := some "s", prec := none } : V3Route).rmatch with
                      headers := [] ++ [xfpHeader] } })) ∧
    (redirect_route
        { rmatch := { pfx := some "/", safe_regex := none, headers := [] },
          route := some "cluster-a", redirect := none, sni := some "s",
          prec := none } =
      { insecure_route
          { rmatch := { pfx := some "/", safe_regex := none, headers := [] },
            route := some "cluster-a", redirect := none, sni := some "s",
            prec := none } with
        route := none, redirect := some { https_redirect := true } }) ∧
    (∀ a, ({ vname := "h1", hostname := "example.com", ctx := some 3,
             secure := true, action := some "Route",
             insecure_action := some "Redirect",
             routes := [] } : V3VirtualHost).action = some a →
      (true,
       secure_route
         { rmatch := { pfx := some "/", safe_regex := none, headers := [] },
           route := some "cluster-a", redirect := none, sni := some "s",
           prec := none }, a) ∈
        candidates
          { vname := "h1", hostname := "example.com", ctx := some 3,
            secure := true, action := some "Route",
            insecure_action := some "Redirect", routes := [] }
          (secure_route
            { rmatch := { pfx := some "/", safe_regex := none, headers := [] },
              route := some "cluster-a", redirect := none, sni := some "s",
              prec := none })
          (insecure_route
            { rmatch := { pfx := some "/", safe_regex := none, headers := [] },
              route := some "cluster-a", redirect := none, sni := some "s",
              prec := none })
          (redirect_route
            { rmatch := { pfx := some "/", safe_regex := none, headers := [] },
              route := some "cluster-a", redirect := none, sni := some "s",
              prec := none })) ∧
    (({ vname := "h1", hostname := "example.com", ctx := some 3,
        secure := true, action := some "Route",
        insecure_action := some "Redirect",
        routes := [] } : V3VirtualHost).insecure_action = some "Redirect" →
      (candidates
        { vname := "h1", hostname := "example.com", ctx := some 3,
          secure := true, action := some "Route",
          insecure_action := some "Redirect", routes := [] }
        (secure_route
          { rmatch := { pfx := some "/", safe_regex := none, headers := [] },
            route := some "cluster-a", redirect := none, sni := some "s",
            prec := none })
        (insecure_route
          { rmatch := { pfx := some "/", safe_regex := none, headers := [] },
            route := some "cluster-a", redirect := none, sni := some "s",
            prec := none })
        (redirect_route
          { rmatch := { pfx := some "/", safe_regex := none, headers := [] },
            route := some "cluster-a", redirect := none, sni := some "s",
            prec := none })).filter (fun t => !t.1) =
        [(false,
          redirect_route
            { rmatch := { pfx := some "/", safe_regex := none, headers := [] },
              route := some "cluster-a", redirect := none, sni := some "s",
              prec := none }, "Redirect")]) :=
  variant_construction
    { rmatch := { pfx := some "/", safe_regex := none, headers := [] },
      route := some "cluster-a", redirect := none, sni := some "s",
      prec := none }
    { vname := "h1", hostname := "example.com", ctx := some 3, secure := true,
      action := some "Route", insecure_action := some "Redirect", routes := [] }

theorem afind_eq_none_iff {κ α : Type} [DecidableEq κ] {k : κ} :
    ∀ {l : List (κ × α)}, afind k l = none ↔ ∀ e ∈ l, e.1 ≠ k := by
  intro l
  induction l with
  | nil => simp [afind]
  | cons e rest ih =>
    by_cases h : e.1 = k <;> simp [afind, h, ih]

theorem afind_append {κ α : Type} [DecidableEq κ] (k : κ)
    (l1 l2 : List (κ × α)) :
    afind k (l1 ++ l2) =
      match afind k l1 with
      | some v => some v
      | none => afind k l2 := by
  induction l1 with
  | nil => simp [afind]
  | cons e rest ih =>
    by_cases h : e.1 = k <;> simp [afind, h, ih]

theorem aset_of_afind_none {κ α : Type} [DecidableEq κ] {k : κ} {v : α} :
    ∀ {l : List (κ × α)}, afind k l = none → aset k v l = l := by
  intro l
  induction l with
  | nil => simp [aset]
  | cons e rest ih =>
    by_cases h : e.1 = k <;> simp [afind, aset, h]
    exact ih

theorem aset_append_left_none {κ α : Type} [DecidableEq κ] {k : κ} {v : α}
    {l1 : List (κ × α)} (l2 : List (κ × α)) (h : afind k l1 = none) :
    aset k v (l1 ++ l2) = l1 ++ aset k v l2 := by
  induction l1 with
  | nil => simp
  | cons e rest ih =>
    rw [afind] at h
    by_cases he : e.1 = k
    · simp [he] at h
    · simp [he] at h
      simp [aset, he, ih h]

theorem aset_keys {κ α : Type} [DecidableEq κ] (k : κ) (v : α) :
    ∀ (l : List (κ × α)), (aset k v l).map Prod.fst = l.map Prod.fst := by
  intro l
  induction l with
  | nil => rfl
  | cons e rest ih =>
    by_cases h : e.1 = k <;> simp [aset, h, ih]

theorem afind_aset_self {κ α : Type} [DecidableEq κ] {k : κ} {v : α} :
    ∀ {l : List (κ × α)}, (afind k l).isSome → afind k (aset k v l) = some v := by
  intro l
  induction l with
  | nil => simp [afind]
  | cons e rest ih =>
    by_cases h : e.1 = k <;> simp [afind, aset, h]
    exact ih

theorem afind_aset_ne {κ α : Type} [DecidableEq κ] {k k2 : κ} {v : α}
    (hne : k2 ≠ k) : ∀ {l : List (κ × α)}, afind k2 (aset k v l) = afind k2 l := by
  intro l
  induction l with
  | nil => rfl
  | cons e rest ih =>
    by_cases h : e.1 = k
    · simp [aset, afind, h, Ne.symm hne]
    · simp [aset, afind, h, ih]

theorem afind_none_not_mem_keys {κ α : Type} [DecidableEq κ] {k : κ}
    {l : List (κ × α)} (h : afind k l = none) : k ∉ l.map Prod.fst := by
  rw [afind_eq_none_iff] at h
  simp only [List.mem_map]
  rintro ⟨e, he, hk⟩
  exact h e he hk

theorem mem_aset {κ α : Type} [DecidableEq κ] {k : κ} {v : α} :
    ∀ {l : List (κ × α)} {e}, e ∈ aset k v l → e = (k, v) ∨ e ∈ l := by
  intro l
  induction l with
  | nil => simp [aset]
  | cons e2 rest ih =>
    intro e he
    by_cases h : e2.1 = k
    · simp [aset, h] at he
      rcases he with he | he
      · exact Or.inl he
      · exact Or.inr (by simp [he])
    · simp [aset, h] at he
      rcases he with he | he
      · exact Or.inr (by simp [he])
      · rcases ih he with h2 | h2
        · exact Or.inl h2
        · exact Or.inr (by simp [h2])

/-- C3 (amended): `make_vhost` is a no-op exactly when a vhost already sits
under the hostname key and the five compared attributes — hostname, TLS
context, secure flag, secure action, insecure action — all agree with it
(the display name is not validated); it fails exactly when one of those
five differs; and it creates the vhost when the key is absent, recording it
as `first_vhost` if it is the first. -/
theorem make_vhost_spec (L : V3Listener) (name hostname : String)
    (context : Option Nat) (secure : Bool)
    (action insecure_action : Option String) :
    (∀ vh, afind hostname L.vhosts = some vh →
      ((hostname = vh.hostname ∧ context = vh.ctx ∧ secure = vh.secure ∧
        action = vh.action ∧ insecure_action = vh.insecure_action) →
        make_vhost L name hostname context secure action insecure_action =
          Except.ok L) ∧
      (¬ (hostname = vh.hostname ∧ context = vh.ctx ∧ secure = vh.secure ∧
          action = vh.action ∧ insecure_action = vh.insecure_action) →
        ∃ e, make_vhost L name hostname context secure action insecure_action =
          Except.error e)) ∧
    (afind hostname L.vhosts = none →
      make_vhost L name hostname context secure action insecure_action =
        Except.ok
          { L with
            vhosts := L.vhosts ++
              [(hostname,
                { vname := name, hostname, ctx := context, secure, action,
                  insecure_action, routes := [] })],
            first_vhost := match L.first_vhost with
              | some k => some k
              | none => some hostname }) := by
  constructor
  · intro vh hfind
    constructor
    · intro heq
      rcases heq with ⟨h1, h2, h3, h4, h5⟩
      subst h1; subst h2; subst h3; subst h4; subst h5
      simp [make_vhost, hfind]
    · intro hne
      refine ⟨"V3Listener " ++ L.lname ++ ": trying to make vhost " ++ name ++
        " for " ++ hostname ++ " but one already exists", ?_⟩
      simp only [make_vhost, hfind]
      rw [if_pos]
      tauto
  · intro hnone
    simp [make_vhost, hnone]

/-- C3 witness: the no-op, error and creation cases of the amended theorem
at a concrete listener. -/
theorem make_vhost_spec_witness :
    make_vhost
      { port := 8443, lname := "ambassador-listener-8443",
        use_proxy_proto := false,
        vhosts := [("example.com",
          { vname := "orig", hostname := "example.com", ctx := some 1,
            secure := true, action := some "Route",
            insecure_action := some "Redirect", routes := [] })],
        first_vhost := some "example.com" }
      "orig" "example.com" (some 1) true (some "Route") (some "Redirect") =
      Except.ok
        { port := 8443, lname := "ambassador-listener-8443",
          use_proxy_proto := false,
          vhosts := [("example.com",
            { vname := "orig", hostname := "example.com", ctx := some 1,
              secure := true, action := some "Route",
              insecure_action := some "Redirect", routes := [] })],
          first_vhost := some "example.com" } :=
  ((make_vhost_spec _ "orig" "example.com" (some 1) true (some "Route")
      (some "Redirect")).1
    { vname := "orig", hostname := "example.com", ctx := some 1,
      secure := true, action := some "Route",
      insecure_action := some "Redirect", routes := [] }
    (by decide)).1 (by decide)

/-- C3 counterexample: registering under an existing key with a *different
display name* but identical five compared attributes is a silent no-op, not
the fatal error the claim requires for "any attribute of the tuple". -/
theorem make_vhost_name_not_compared :
    ¬ ("renamed" = "orig") ∧
    make_vhost
      { port := 8443, lname := "ambassador-listener-8443",
        use_proxy_proto := false,
        vhosts := [("example.com",
          { vname := "orig", hostname := "example.com", ctx := some 1,
            secure := true, action := some "Route",
            insecure_action := some "Redirect", routes := [] })],
        first_vhost := some "example.com" }
      "renamed" "example.com" (some 1) true (some "Route") (some "Redirect") =
      Except.ok
        { port := 8443, lname := "ambassador-listener-8443",
          use_proxy_proto := false,
          vhosts := [("example.com",
            { vname := "orig", hostname := "example.com", ctx := some 1,
              secure := true, action := some "Route",
              insecure_action := some "Redirect", routes := [] })],
          first_vhost := some "example.com" } :=
  ⟨by decide, by rfl⟩

/-- C5: `V3ListenerCollection.get` creates the listener with the supplied
proxy-protocol flag on a port miss, returns the collection and listener
unchanged when the stored flag agrees, fails when it disagrees, and keeps
the port keys duplicate-free (at most one listener per port). -/
theorem coll_get_spec (c : V3ListenerCollection) (port : Nat) (upp : Bool) :
    (afind port c.listeners = none →
      coll_get c port upp =
        Except.ok
          ({ listeners := c.listeners ++
              [(port, { V3Listener.init port with use_proxy_proto := upp })] },
           { V3Listener.init port with use_proxy_proto := upp })) ∧
    (∀ L, afind port c.listeners = some L →
      (L.use_proxy_proto = upp → coll_get c port upp = Except.ok (c, L)) ∧
      (L.use_proxy_proto ≠ upp →
        ∃ e, coll_get c port upp = Except.error e)) ∧
    ((c.listeners.map Prod.fst).Nodup →
      ∀ c2 L, coll_get c port upp = Except.ok (c2, L) →
        (c2.listeners.map Prod.fst).Nodup) := by
  refine ⟨?_, ?_, ?_⟩
  · intro hnone
    simp [coll_get, coll_item, hnone, aset_append_left_none _ hnone, aset]
  · intro L hfind
    constructor
    · intro heq
      simp [coll_get, coll_item, hfind, heq]
    · intro hne
      refine ⟨"listener for port " ++ toString port ++
        " has a conflicting use_proxy_proto", ?_⟩
      simp [coll_get, coll_item, hfind, hne]
  · intro hnd c2 L2 hok
    rcases hcase : afind port c.listeners with _ | L0
    · have hgo : coll_get c port upp =
          Except.ok
            ({ listeners := c.listeners ++
                [(port, { V3Listener.init port with use_proxy_proto := upp })] },
             { V3Listener.init port with use_proxy_proto := upp }) := by
        simp [coll_get, coll_item, hcase, aset_append_left_none _ hcase, aset]
      rw [hgo] at hok
      simp only [Except.ok.injEq, Prod.mk.injEq] at hok
      obtain ⟨h1, h2⟩ := hok
      subst h1
      simp only [List.map_append, List.map_cons, List.map_nil]
      rw [List.nodup_append]
      exact ⟨hnd, List.nodup_singleton port,
        by simpa using afind_none_not_mem_keys hcase⟩
    · by_cases hupp : L0.use_proxy_proto = upp
      · have hgo : coll_get c port upp = Except.ok (c, L0) := by
          simp [coll_get, coll_item, hcase, hupp]
        rw [hgo] at hok
        simp only [Except.ok.injEq, Prod.mk.injEq] at hok
        obtain ⟨h1, h2⟩ := hok
        subst h1
        exact hnd
      · simp [coll_get, coll_item, hcase, hupp] at hok

theorem afind_mem {κ α : Type} [DecidableEq κ] {k : κ} {v : α} :
    ∀ {l : List (κ × α)}, afind k l = some v → (k, v) ∈ l := by
  intro l
  induction l with
  | nil => simp [afind]
  | cons e rest ih =>
    by_cases h : e.1 = k <;> intro hf <;> simp [afind, h] at hf
    · have he : (k, v) = e := by rw [← h, ← hf]
      rw [he]
      exact List.mem_cons_self _ _
    · exact List.mem_cons_of_mem _ (ih hf)

theorem afind_isSome_mem_keys {κ α : Type} [DecidableEq κ] {k : κ}
    {l : List (κ × α)} (h : (afind k l).isSome) : k ∈ l.map Prod.fst := by
  rcases hs : afind k l with _ | v
  · rw [hs] at h
    simp at h
  · exact List.mem_map.mpr ⟨(k, v), afind_mem hs, rfl⟩

theorem except_bind_ok {ε α β : Type} {x : Except ε α} {f : α → Except ε β}
    {b : β} (h : x >>= f = Except.ok b) :
    ∃ a, x = Except.ok a ∧ f a = Except.ok b := by
  cases x with
  | error e => simp [Bind.bind, Except.bind] at h
  | ok a => exact ⟨a, rfl, by simpa [Bind.bind, Except.bind] using h⟩

theorem foldlM_except_inv {σ α : Type} {P : σ → Prop}
    (f : σ → α → Except String σ)
    (hstep : ∀ t x t', P t → f t x = Except.ok t' → P t') :
    ∀ (l : List α) (s s' : σ), List.foldlM f s l = Except.ok s' → P s → P s' := by
  intro l
  induction l with
  | nil =>
    intro s s' h hP
    simp only [List.foldlM_nil, pure, Except.pure, Except.ok.injEq] at h
    rw [← h]
    exact hP
  | cons x xs ih =>
    intro s s' h hP
    rw [List.foldlM_cons] at h
    obtain ⟨t, hx, hrest⟩ := except_bind_ok h
    exact ih t s' hrest (hstep s x t hP hx)

theorem mapM_except_forall {α β : Type} (f : α → Except String β) :
    ∀ (l : List α) (res : List β), l.mapM f = Except.ok res →
      ∀ b ∈ res, ∃ a ∈ l, f a = Except.ok b := by
  intro l
  induction l with
  | nil =>
    intro res h b hb
    rw [List.mapM_nil] at h
    simp only [pure, Except.pure, Except.ok.injEq] at h
    rw [← h] at hb
    simp at hb
  | cons x xs ih =>
    intro res h b hb
    rw [List.mapM_cons] at h
    obtain ⟨y, hy, h2⟩ := except_bind_ok h
    obtain ⟨ys, hys, h3⟩ := except_bind_ok h2
    simp only [pure, Except.pure, Except.ok.injEq] at h3
    rw [← h3] at hb
    rcases List.mem_cons.mp hb with hb | hb
    · exact ⟨x, by simp, by rw [hy, hb]⟩
    · obtain ⟨a, ha, hfa⟩ := ih ys hys b hb
      exact ⟨a, by simp [ha], hfa⟩

theorem make_vhost_keys {L L' : V3Listener} {name hostname : String}
    {context : Option Nat} {secure : Bool} {action ia : Option String}
    (hk : keys_hostnames L)
    (h : make_vhost L name hostname context secure action ia = Except.ok L') :
    keys_hostnames L' := by
  unfold make_vhost at h
  rcases hf : afind hostname L.vhosts with _ | vh <;> rw [hf] at h
  · simp only [Except.ok.injEq] at h
    rw [← h]
    constructor
    · intro e he
      rcases List.mem_append.mp he with he | he
      · exact hk.1 e he
      · simp at he
        simp [he]
    · simp only [List.map_append, List.map_cons, List.map_nil]
      rw [List.nodup_append]
      exact ⟨hk.2, List.nodup_singleton _,
        by simpa using afind_none_not_mem_keys hf⟩
  · by_cases hc : hostname ≠ vh.hostname ∨ context ≠ vh.ctx ∨
        secure ≠ vh.secure ∨ action ≠ vh.action ∨ ia ≠ vh.insecure_action
    · simp [hc] at h
    · simp only [hc, if_false, Except.ok.injEq] at h
      rw [← h]
      exact hk

theorem coll_get_ok_cases {c c2 : V3ListenerCollection} {L2 : V3Listener}
    {port : Nat} {upp : Bool}
    (h : coll_get c port upp = Except.ok (c2, L2)) :
    (afind port c.listeners = none ∧
      c2.listeners = c.listeners ++ [(port, L2)] ∧
      L2.vhosts = [] ∧ L2.first_vhost = none) ∨
    (afind port c.listeners = some L2 ∧ c2 = c) := by
  rcases hf : afind port c.listeners with _ | L0
  · left
    have hgo : coll_get c port upp =
        Except.ok
          ({ listeners := c.listeners ++
              [(port, { V3Listener.init port with use_proxy_proto := upp })] },
           { V3Listener.init port with use_proxy_proto := upp }) := by
      simp [coll_get, coll_item, hf, aset_append_left_none _ hf, aset]
    rw [hgo] at h
    simp only [Except.ok.injEq, Prod.mk.injEq] at h
    obtain ⟨h1, h2⟩ := h
    rw [← h1, ← h2]
    exact ⟨rfl, rfl, rfl, rfl⟩
  · right
    by_cases hupp : L0.use_proxy_proto = upp
    · have hgo : coll_get c port upp = Except.ok (c, L0) := by
        simp [coll_get, coll_item, hf, hupp]
      rw [hgo] at h
      simp only [Except.ok.injEq, Prod.mk.injEq] at h
      obtain ⟨h1, h2⟩ := h
      rw [← h1, ← h2]
      exact ⟨rfl, rfl⟩
    · simp [coll_get, coll_item, hf, hupp] at h

theorem keys_hostnames_of_nil {L : V3Listener} (h : L.vhosts = []) :
    keys_hostnames L := by
  simp [keys_hostnames, h]

theorem aset_inv_keys {port : Nat} {L' : V3Listener}
    {ls : List (Nat × V3Listener)}
    (hinv : ∀ e ∈ ls, keys_hostnames e.2) (hk : keys_hostnames L') :
    ∀ e ∈ aset port L' ls, keys_hostnames e.2 := by
  intro e he
  rcases mem_aset he with h | h
  · rw [h]
    exact hk
  · exact hinv e h

theorem append_inv_keys {port : Nat} {L2 : V3Listener}
    {ls : List (Nat × V3Listener)}
    (hinv : ∀ e ∈ ls, keys_hostnames e.2) (hk : keys_hostnames L2) :
    ∀ e ∈ ls ++ [(port, L2)], keys_hostnames e.2 := by
  intro e he
  rcases List.mem_append.mp he with h | h
  · exact hinv e h
  · simp at h
    rw [h]
    exact hk

theorem coll_get_inv_keys {c c2 : V3ListenerCollection} {L2 : V3Listener}
    {port : Nat} {upp : Bool}
    (h : coll_get c port upp = Except.ok (c2, L2))
    (hinv : ∀ e ∈ c.listeners, keys_hostnames e.2) :
    (∀ e ∈ c2.listeners, keys_hostnames e.2) ∧ keys_hostnames L2 := by
  rcases coll_get_ok_cases h with ⟨_, hc2, hvh, _⟩ | ⟨hf, hc2⟩
  · have hk : keys_hostnames L2 := keys_hostnames_of_nil hvh
    rw [hc2]
    exact ⟨append_inv_keys hinv hk, hk⟩
  · rw [hc2]
    exact ⟨hinv, hinv _ (afind_mem hf)⟩

theorem process_irlistener_inv
    {st st' : V3ListenerCollection × List (Nat × IRListener)} {ir : IRListener}
    (h : process_irlistener st ir = Except.ok st')
    (hinv : ∀ e ∈ st.1.listeners, keys_hostnames e.2) :
    ∀ e ∈ st'.1.listeners, keys_hostnames e.2 := by
  obtain ⟨coll, firsts⟩ := st
  unfold process_irlistener at h
  obtain ⟨⟨coll1, L⟩, hg, h⟩ := except_bind_ok h
  obtain ⟨hinv1, hkL⟩ := coll_get_inv_keys hg hinv
  try dsimp only at h
  obtain ⟨u, ha, h⟩ := except_bind_ok h
  obtain ⟨L', hm, h⟩ := except_bind_ok h
  have hkL' : keys_hostnames L' := make_vhost_keys hkL hm
  have hinv2 : ∀ e ∈ aset ir.service_port L' coll1.listeners, keys_hostnames e.2 :=
    aset_inv_keys hinv1 hkL'
  try dsimp only at h
  rcases hp : ir.insecure_addl_port with _ | p <;> rw [hp] at h <;>
    try dsimp only at h
  · simp only [pure, Except.pure, Except.ok.injEq] at h
    rw [← h]
    exact hinv2
  · by_cases hpos : p > 0
    · rw [if_pos hpos] at h
      obtain ⟨⟨coll3, L2⟩, hg2, h⟩ := except_bind_ok h
      obtain ⟨hinv3, hkL2⟩ := coll_get_inv_keys hg2 hinv2
      try dsimp only at h
      by_cases hv : (afind (ir.hostname.getD "*") L2.vhosts).isNone
      · rw [if_pos hv] at h
        obtain ⟨L2', hm2, h⟩ := except_bind_ok h
        have hkL2' : keys_hostnames L2' := make_vhost_keys hkL2 hm2
        simp only [pure, Except.pure, Except.ok.injEq] at h
        rw [← h]
        exact aset_inv_keys hinv3 hkL2'
      · rw [if_neg hv] at h
        simp only [pure, Except.pure, Except.ok.injEq] at h
        rw [← h]
        exact hinv3
    · rw [if_neg hpos] at h
      simp only [pure, Except.pure, Except.ok.injEq] at h
      rw [← h]
      exact hinv2

theorem filter_key_nil {κ α : Type} [DecidableEq κ] {k : κ} :
    ∀ {l : List (κ × α)}, k ∉ l.map Prod.fst →
      l.filter (fun e => e.1 = k) = [] := by
  intro l
  induction l with
  | nil => simp
  | cons e rest ih =>
    intro hk
    simp only [List.map_cons, List.mem_cons] at hk
    push_neg at hk
    have h1 : ¬ e.1 = k := fun hc => hk.1 (by rw [hc])
    simp [List.filter_cons, h1, ih hk.2]

theorem length_filter_key_eq_one {κ α : Type} [DecidableEq κ] {k : κ} :
    ∀ {l : List (κ × α)}, (l.map Prod.fst).Nodup → k ∈ l.map Prod.fst →
      (l.filter (fun e => e.1 = k)).length = 1 := by
  intro l
  induction l with
  | nil => simp
  | cons e rest ih =>
    intro hnd hk
    simp only [List.map_cons, List.nodup_cons] at hnd
    by_cases h : e.1 = k
    · have hnot : k ∉ rest.map Prod.fst := by
        rw [← h]
        exact hnd.1
      simp [List.filter_cons, h, filter_key_nil hnot]
    · simp only [List.map_cons, List.mem_cons] at hk
      rcases hk with hk | hk
      · exact absurd hk.symm h
      · simp [List.filter_cons, h, ih hnd.2 hk]

theorem star_count_of_keys {L : V3Listener} (hk : keys_hostnames L)
    (hsome : (afind "*" L.vhosts).isSome) : star_count L = 1 := by
  unfold star_count
  rw [List.filter_congr (fun e he => by
    simp only [hk.1 e he] : ∀ e ∈ L.vhosts,
      (decide (e.2.hostname = "*")) = (decide (e.1 = "*")))]
  exact length_filter_key_eq_one hk.2 (afind_isSome_mem_keys hsome)

theorem filter_star_nil {l : List (String × V3VirtualHost)}
    (hns : ∀ e ∈ l, ¬ e.2.hostname = "*") :
    l.filter (fun e => e.2.hostname = "*") = [] := by
  induction l with
  | nil => rfl
  | cons e rest ih =>
    simp [List.filter_cons, hns e (by simp),
      ih (fun e2 he2 => hns e2 (by simp [he2]))]

theorem star_count_aset {fk : String} {vh' : V3VirtualHost}
    (hstar : vh'.hostname = "*") :
    ∀ {l : List (String × V3VirtualHost)},
      (∀ e ∈ l, ¬ e.2.hostname = "*") → (afind fk l).isSome →
      ((aset fk vh' l).filter (fun e => e.2.hostname = "*")).length = 1 := by
  intro l
  induction l with
  | nil => simp [afind]
  | cons e rest ih =>
    intro hns hmem
    by_cases h : e.1 = fk
    · have hnsr : ∀ e2 ∈ rest, ¬ e2.2.hostname = "*" :=
        fun e2 he2 => hns e2 (by simp [he2])
      simp [aset, h, List.filter_cons, hstar, filter_star_nil hnsr]
    · rw [afind] at hmem
      simp only [h, if_false] at hmem
      have hnsr : ∀ e2 ∈ rest, ¬ e2.2.hostname = "*" :=
        fun e2 he2 => hns e2 (by simp [he2])
      simp [aset, h, List.filter_cons, hns e (by simp), ih hnsr hmem]

theorem force_star_ok {L L' : V3Listener} (hk : keys_hostnames L)
    (h : force_star L = Except.ok L') : star_count L' = 1 := by
  unfold force_star at h
  by_cases hs : (afind "*" L.vhosts).isSome
  · rw [if_pos hs] at h
    simp only [Except.ok.injEq] at h
    rw [← h]
    exact star_count_of_keys hk hs
  · rw [if_neg hs] at h
    have hnone : afind "*" L.vhosts = none := Option.not_isSome_iff_eq_none.mp hs
    have hns : ∀ e ∈ L.vhosts, ¬ e.2.hostname = "*" := by
      intro e he hc
      have hkey : e.1 ≠ "*" := (afind_eq_none_iff.mp hnone) e he
      exact hkey (by rw [← hk.1 e he]; exact hc)
    rcases hfv : L.first_vhost with _ | fk
    · rw [hfv] at h
      simp at h
    · rw [hfv] at h
      try dsimp only at h
      rcases hfk : afind fk L.vhosts with _ | vh
      · rw [hfk] at h
        simp at h
      · rw [hfk] at h
        try dsimp only at h
        simp only [Except.ok.injEq] at h
        rw [← h]
        unfold star_count
        exact star_count_aset rfl hns (by simp [hfk])

theorem star_inv_apply_route (edge_stack : Bool) (coll : V3ListenerCollection)
    (crh : V3Route × List String)
    (hstar : ∀ e ∈ coll.listeners, star_count e.2 = 1) :
    ∀ e ∈ (apply_route edge_stack coll crh).listeners, star_count e.2 = 1 := by
  intro e he
  unfold apply_route at he
  simp only [List.mem_map] at he
  obtain ⟨e0, he0, heq⟩ := he
  rw [← heq]
  have h1 := hstar e0 he0
  unfold star_count at h1 ⊢
  dsimp only
  rw [List.filter_map, List.length_map]
  exact h1

theorem star_inv_route_foldl (edge_stack : Bool)
    (routes : List (V3Route × List String)) :
    ∀ (coll : V3ListenerCollection),
      (∀ e ∈ coll.listeners, star_count e.2 = 1) →
      ∀ e ∈ (routes.foldl (apply_route edge_stack) coll).listeners,
        star_count e.2 = 1 := by
  induction routes with
  | nil => intro coll h; exact h
  | cons r rs ih =>
    intro coll h
    exact ih _ (star_inv_apply_route edge_stack coll r h)

theorem star_inv_force_acme {cfg : V3Config} {coll coll' : V3ListenerCollection}
    {firsts : List (Nat × IRListener)}
    (h : force_acme_listener cfg coll firsts = Except.ok coll')
    (hstar : ∀ e ∈ coll.listeners, star_count e.2 = 1) :
    ∀ e ∈ coll'.listeners, star_count e.2 = 1 := by
  unfold force_acme_listener at h
  by_cases hc : cfg.edge_stack_allowed = true ∧ cfg.agent_active = false ∧
      (afind 8080 coll.listeners).isNone
  · rw [if_pos hc] at h
    have hnone : afind 8080 coll.listeners = none :=
      Option.isNone_iff_eq_none.mp hc.2.2
    obtain ⟨⟨c2, L⟩, hg, h⟩ := except_bind_ok h
    rcases coll_get_ok_cases hg with ⟨_, hc2, hvh, hfv0⟩ | ⟨hf, _⟩
    · obtain ⟨L', hm, h⟩ := except_bind_ok h
      have hmk : L' = { L with
          vhosts := [("*",
            { vname := "forced-8080", hostname := "*", ctx := none,
              secure := false, action := none,
              insecure_action := some "Reject", routes := [] })],
          first_vhost := some "*" } := by
        unfold make_vhost at hm
        rw [hvh, hfv0] at hm
        simp only [afind, List.nil_append, Except.ok.injEq] at hm
        exact hm.symm
      simp only [pure, Except.pure, Except.ok.injEq] at h
      rw [← h]
      intro e he
      dsimp only at he
      rw [hc2, aset_append_left_none _ hnone] at he
      rcases List.mem_append.mp he with he | he
      · exact hstar e he
      · simp [aset, afind] at he
        rw [he, hmk]
        simp [star_count]
    · rw [hnone] at hf
      simp at hf
  · rw [if_neg hc] at h
    simp only [pure, Except.pure, Except.ok.injEq] at h
    rw [← h]
    exact hstar

/-- C4: when generation succeeds, every listener of the result has exactly
one vhost whose hostname is `*`; and whenever a listener had no `*` vhost,
the star-forcing pass rewrites exactly the `first_vhost` entry (the
first-registered vhost), coercing its hostname to `*` and renaming it with
the `-forced-star` suffix, leaving every other vhost unchanged. -/
theorem generate_exactly_one_star (cfg : V3Config) (st : V3ListenerCollection)
    (hgen : generate cfg = Except.ok st) :
    (∀ e ∈ st.listeners, star_count e.2 = 1) ∧
    (∀ L L' : V3Listener, afind "*" L.vhosts = none →
      force_star L = Except.ok L' →
      ∃ fk vh, L.first_vhost = some fk ∧ afind fk L.vhosts = some vh ∧
        L' = { L with
          vhosts := aset fk
            { vh with hostname := "*", vname := vh.vname ++ "-forced-star" }
            L.vhosts }) := by
  constructor
  · unfold generate at hgen
    obtain ⟨⟨coll, firsts⟩, h1, hgen⟩ := except_bind_ok hgen
    have hinv1 : ∀ e ∈ coll.listeners, keys_hostnames e.2 := by
      have := foldlM_except_inv
        (P := fun st : V3ListenerCollection × List (Nat × IRListener) =>
          ∀ e ∈ st.1.listeners, keys_hostnames e.2)
        process_irlistener
        (fun t x t' hP hstep => process_irlistener_inv hstep hP)
        cfg.ir_listeners ({ listeners := [] }, []) (coll, firsts) h1 (by simp)
      exact this
    obtain ⟨starred, h2, hgen⟩ := except_bind_ok hgen
    have hstar : ∀ e ∈ starred, star_count e.2 = 1 := by
      intro e he
      obtain ⟨a, ha, hfa⟩ := mapM_except_forall _ _ _ h2 e he
      obtain ⟨L, hfs, hpure⟩ := except_bind_ok hfa
      simp only [pure, Except.pure, Except.ok.injEq] at hpure
      rw [← hpure]
      exact force_star_ok (hinv1 a ha) hfs
    obtain ⟨coll2, h3, hgen⟩ := except_bind_ok hgen
    have hstar2 : ∀ e ∈ coll2.listeners, star_count e.2 = 1 :=
      star_inv_force_acme h3 hstar
    simp only [pure, Except.pure, Except.ok.injEq] at hgen
    rw [← hgen]
    exact star_inv_route_foldl cfg.edge_stack_allowed cfg.routes coll2 hstar2
  · intro L L' hnone h
    unfold force_star at h
    rw [if_neg (by simp [hnone])] at h
    rcases hfv : L.first_vhost with _ | fk
    · rw [hfv] at h
      simp at h
    · rw [hfv] at h
      try dsimp only at h
      rcases hfk : afind fk L.vhosts with _ | vh
      · rw [hfk] at h
        simp at h
      · rw [hfk] at h
        try dsimp only at h
        simp only [Except.ok.injEq] at h
        exact ⟨fk, vh, rfl, hfk, h.symm⟩

/-- C4 witness: generation on a one-listener configuration with a
non-wildcard hostname; the sole vhost is coerced to the catch-all. -/
theorem generate_exactly_one_star_witness :
    (∀ e ∈ (V3ListenerCollection.mk
        [(8443,
          { port := 8443, lname := "ambassador-listener-8443",
            use_proxy_proto := false,
            vhosts := [("example.com",
              { vname := "example.com-forced-star", hostname := "*",
                ctx := some 1, secure := true, action := some "Route",
                insecure_action := some "Route", routes := [] })],
            first_vhost := some "example.com" })]).listeners,
      star_count e.2 = 1) ∧
    (∀ L L' : V3Listener, afind "*" L.vhosts = none →
      force_star L = Except.ok L' →
      ∃ fk vh, L.first_vhost = some fk ∧ afind fk L.vhosts = some vh ∧
        L' = { L with
          vhosts := aset fk
            { vh with hostname := "*", vname := vh.vname ++ "-forced-star" }
            L.vhosts }) :=
  generate_exactly_one_star
    { ir_listeners := [
        { irname := "l1", hostname := some "example.com", service_port := 8443,
          use_proxy_proto := false, context := some 1,
          secure_action := some "Route", insecure_action := some "Route",
          insecure_addl_port := none }],
      routes := [], edge_stack_allowed := false, agent_active := false,
      service_port := 8443 }
    _ (by rfl)

/-- C9: setting both proper-case mode and a non-empty overrides list posts
the conflict diagnostic (plus, since the overrides are nulled first, the
not-an-array diagnostic), discards the override table, and emits
`proper_case_words`; a truthy non-array value posts the not-an-array
diagnostic and is treated as absent; a non-empty list with no string
entries posts the per-entry and no-valid-headers diagnostics and is treated
as absent; the empty list is silently ignored.  The pass is a total
function, so configuration emission always completes. -/
theorem header_case_policy (pc : Bool) (s : PyScalar) (l : List PyScalar) :
    (l ≠ [] →
      header_case_pass true (PyVal.vlist l) =
        ([conflictMsg, notArrayMsg], some HeaderKeyFormat.proper_case_words)) ∧
    ((PyVal.scalar s).truthy = true →
      header_case_pass pc (PyVal.scalar s) =
        ((if pc then [conflictMsg, notArrayMsg] else [notArrayMsg]),
         if pc then some HeaderKeyFormat.proper_case_words else none)) ∧
    (l ≠ [] → strEntries l = [] →
      header_case_pass false (PyVal.vlist l) =
        (skipErrs l ++ [noValidMsg], none)) ∧
    (header_case_pass pc (PyVal.vlist []) =
      ([], if pc then some HeaderKeyFormat.proper_case_words else none)) := by
  refine ⟨?_, ?_, ?_, ?_⟩
  · intro hl
    simp [header_case_pass, PyVal.truthy, hl]
  · intro hs
    cases pc <;> simp only [header_case_pass, hs, if_true] <;>
      simp [PyVal.truthy]
  · intro hl hse
    simp [header_case_pass, PyVal.truthy, hl, hse,
      List.length_eq_zero]
  · cases pc <;> simp [header_case_pass, PyVal.truthy]

/-- C9 witness: the mutually-exclusive case at a concrete one-element list,
and the non-array case at a concrete string value. -/
theorem header_case_policy_witness :
    ([PyScalar.vstr "X-HELLO"] ≠ ([] : List PyScalar) →
      header_case_pass true (PyVal.vlist [PyScalar.vstr "X-HELLO"]) =
        ([conflictMsg, notArrayMsg], some HeaderKeyFormat.proper_case_words)) ∧
    ((PyVal.scalar (PyScalar.vstr "zot")).truthy = true →
      header_case_pass true (PyVal.scalar (PyScalar.vstr "zot")) =
        ((if true then [conflictMsg, notArrayMsg] else [notArrayMsg]),
         if true then some HeaderKeyFormat.proper_case_words else none)) ∧
    ([PyScalar.vstr "X-HELLO"] ≠ ([] : List PyScalar) →
      strEntries [PyScalar.vstr "X-HELLO"] = [] →
      header_case_pass false (PyVal.vlist [PyScalar.vstr "X-HELLO"]) =
        (skipErrs [PyScalar.vstr "X-HELLO"] ++ [noValidMsg], none)) ∧
    (header_case_pass true (PyVal.vlist []) =
      ([], if true then some HeaderKeyFormat.proper_case_words else none)) :=
  header_case_policy true (PyScalar.vstr "zot") [PyScalar.vstr "X-HELLO"]

theorem find?_append_some {α : Type} {p : α → Bool} {l1 l2 : List α} {a : α}
    (h : l1.find? p = some a) : (l1 ++ l2).find? p = some a := by
  induction l1 with
  | nil => simp [List.find?] at h
  | cons x xs ih =>
    by_cases hx : p x
    · rw [List.find?_cons_of_pos _ hx] at h
      rw [List.cons_append, List.find?_cons_of_pos _ hx]
      exact h
    · rw [List.find?_cons_of_neg _ hx] at h
      rw [List.cons_append, List.find?_cons_of_neg _ hx]
      exact ih h

theorem find?_append_none {α : Type} {p : α → Bool} {l1 l2 : List α}
    (h : l1.find? p = none) : (l1 ++ l2).find? p = l2.find? p := by
  induction l1 with
  | nil => simp
  | cons x xs ih =>
    by_cases hx : p x
    · rw [List.find?_cons_of_pos _ hx] at h
      simp at h
    · rw [List.find?_cons_of_neg _ hx] at h
      rw [List.cons_append, List.find?_cons_of_neg _ hx]
      exact ih h

theorem add_group_spec (tl : V3TCPListener) (g : IRTCPMappingGroup) :
    add_group tl g =
      { tl with filter_chains :=
          tl.filter_chains ++ [mk_chain tl.tls_context g] } := by
  rcases h : tl.tls_context with _ | ctx <;> simp [add_group, mk_chain, h]

theorem tcp_step_inv {pre : List IRTCPMappingGroup}
    {acc : List (String × V3TCPListener)} {g : IRTCPMappingGroup}
    (h : TCPInv pre acc) : TCPInv (pre ++ [g]) (tcp_step acc g) := by
  obtain ⟨hnd, hmem, hnone, hchar⟩ := h
  unfold tcp_step
  rcases hf : afind (bind_to g) acc with _ | tl0
  · try dsimp only
    refine ⟨?_, ?_, ?_, ?_⟩
    · simp only [List.map_append, List.map_cons, List.map_nil]
      rw [List.nodup_append]
      exact ⟨hnd, List.nodup_singleton _,
        by simpa using afind_none_not_mem_keys hf⟩
    · intro g2 hg2
      rw [afind_append]
      rcases List.mem_append.mp hg2 with hg2 | hg2
      · rcases hs : afind (bind_to g2) acc with _ | t
        · exact absurd rfl (hnone _ hs g2 hg2)
        · simp
      · simp only [List.mem_singleton] at hg2
        subst hg2
        rw [hf]
        simp [afind]
    · intro k hk g2 hg2
      rw [afind_append] at hk
      rcases hs : afind k acc with _ | t
      · rw [hs] at hk
        simp only [afind] at hk
        by_cases hbk : bind_to g = k
        · simp [hbk] at hk
        · rcases List.mem_append.mp hg2 with hg2 | hg2
          · exact hnone k hs g2 hg2
          · simp only [List.mem_singleton] at hg2
            subst hg2
            exact hbk
      · rw [hs] at hk
        simp at hk
    · intro k tl hk
      rw [afind_append] at hk
      rcases hs : afind k acc with _ | t
      · rw [hs] at hk
        simp only [afind] at hk
        by_cases hbk : bind_to g = k
        · simp only [hbk, if_true, Option.some.injEq] at hk
          have hpre_ne : ∀ g2 ∈ pre, bind_to g2 ≠ k := hnone k hs
          have hfind : (pre ++ [g]).find? (fun g2 => bind_to g2 = k) = some g := by
            rw [find?_append_none (List.find?_eq_none.mpr
              (fun x hx => by simp [hpre_ne x hx]))]
            exact List.find?_cons_of_pos _ (by simp [hbk])
          have hfilter : (pre ++ [g]).filter (fun g2 => bind_to g2 = k) = [g] := by
            rw [List.filter_append]
            rw [List.filter_eq_nil_iff.mpr (fun x hx => by simp [hpre_ne x hx])]
            simp [List.filter, hbk]
          refine ⟨g, hfind, ?_⟩
          rw [← hk, add_group_spec, hfilter]
          simp [V3TCPListener.init]
        · simp [hbk] at hk
      · rw [hs] at hk
        simp only [Option.some.injEq] at hk
        cases hk
        obtain ⟨g0, hg0, hrest⟩ := hchar k tl hs
        have hbk : bind_to g ≠ k := by
          intro hc
          rw [hc] at hf
          rw [hf] at hs
          cases hs
        refine ⟨g0, find?_append_some hg0, ?_⟩
        rw [List.filter_append]
        have : [g].filter (fun g2 => bind_to g2 = k) = [] := by
          simp [List.filter, hbk]
        rw [this, List.append_nil]
        exact hrest
  · try dsimp only
    refine ⟨?_, ?_, ?_, ?_⟩
    · rw [aset_keys]
      exact hnd
    · intro g2 hg2
      rcases List.mem_append.mp hg2 with hg2 | hg2
      · by_cases hbk : bind_to g2 = bind_to g
        · rw [hbk]
          rw [afind_aset_self (by simp [hf])]
          simp
        · rw [afind_aset_ne hbk]
          exact hmem g2 hg2
      · simp only [List.mem_singleton] at hg2
        subst hg2
        rw [afind_aset_self (by simp [hf])]
        simp
    · intro k hk g2 hg2
      by_cases hbk : bind_to g = k
      · rw [← hbk] at hk
        rw [afind_aset_self (by simp [hf])] at hk
        cases hk
      · rw [afind_aset_ne (fun hc => hbk hc.symm)] at hk
        rcases List.mem_append.mp hg2 with hg2 | hg2
        · exact hnone k hk g2 hg2
        · simp only [List.mem_singleton] at hg2
          subst hg2
          exact hbk
    · intro k tl hk
      by_cases hbk : bind_to g = k
      · rw [← hbk] at hk
        rw [afind_aset_self (by simp [hf])] at hk
        simp only [Option.some.injEq] at hk
        obtain ⟨g0, hg0, ha1, ha2, ha3, ha4, ha5, ha6⟩ := hchar _ tl0 hf
        rw [hbk] at hg0 ha6
        refine ⟨g0, find?_append_some hg0, ?_⟩
        rw [← hk, add_group_spec]
        refine ⟨ha1, ha2, ha3, ha4, ha5, ?_⟩
        dsimp only
        rw [List.filter_append, List.map_append, ha6, ha4]
        have : [g].filter (fun g2 => bind_to g2 = k) = [g] := by
          simp [List.filter, hbk]
        rw [this]
        simp
      · rw [afind_aset_ne (fun hc => hbk hc.symm)] at hk
        obtain ⟨g0, hg0, hrest⟩ := hchar k tl hk
        refine ⟨g0, find?_append_some hg0, ?_⟩
        rw [List.filter_append]
        have : [g].filter (fun g2 => bind_to g2 = k) = [] := by
          simp [List.filter, hbk]
        rw [this, List.append_nil]
        exact hrest

theorem tcp_foldl_inv :
    ∀ (gs pre : List IRTCPMappingGroup)
      (acc : List (String × V3TCPListener)),
      TCPInv pre acc → TCPInv (pre ++ gs) (gs.foldl tcp_step acc) := by
  intro gs
  induction gs with
  | nil => intro pre acc h; simpa using h
  | cons g rest ih =>
    intro pre acc h
    have h2 := ih (pre ++ [g]) (tcp_step acc g) (tcp_step_inv h)
    simpa [List.append_assoc] using h2

/-- C10 counterexample: two TCP mapping groups share the bind endpoint
`0.0.0.0:9000`; the second declares a TLS context (id 7) and a non-wildcard
SNI host, yet its filter-chain entry carries neither a transport socket nor
a server-name match, because the listener fixed its TLS context from the
first (TLS-less) group at that endpoint. -/
theorem tcp_tls_first_group_counterexample :
    ({ address := none, port := 9000, host := some "sni.example.com",
       tls_context := some 7,
       mappings := [{ cluster_envoy_name := "c2", weight := 100 }] }
        : IRTCPMappingGroup).tls_context = some 7 ∧
    generate_tcp
      [{ address := none, port := 9000, host := none, tls_context := none,
         mappings := [{ cluster_envoy_name := "c1", weight := 100 }] },
       { address := none, port := 9000, host := some "sni.example.com",
         tls_context := some 7,
         mappings := [{ cluster_envoy_name := "c2", weight := 100 }] }] =
      [("0.0.0.0-9000",
        { bind_address := "0.0.0.0", port := 9000,
          tname := "listener-0.0.0.0-9000", tls_context := none,
          tls_inspector := false,
          filter_chains :=
            [{ clusters := [("c1", 100)], stat_port := 9000,
               transport_socket := none, server_names := none },
             { clusters := [("c2", 100)], stat_port := 9000,
               transport_socket := none, server_names := none }] })] := by
  constructor
  · rfl
  · rfl

/-- C10 (amended): groups sharing a bind endpoint are merged into one
listener (duplicate-free keys, one listener per endpoint in use), each group
contributes exactly one sibling chain entry, in order, with one weighted
cluster per mapping of the group; but the downstream-TLS transport socket
and the SNI chain match of every entry are gated on the TLS context of the
*first* group at the endpoint (the one that created the listener), the SNI
host being each group's own. -/
theorem generate_tcp_grouping (groups : List IRTCPMappingGroup) :
    ((generate_tcp groups).map Prod.fst).Nodup ∧
    (∀ g ∈ groups, (afind (bind_to g) (generate_tcp groups)).isSome) ∧
    (∀ k tl, afind k (generate_tcp groups) = some tl →
      ∃ g0, groups.find? (fun g2 => bind_to g2 = k) = some g0 ∧
        tl.tls_context = g0.tls_context ∧
        tl.tls_inspector = g0.tls_context.isSome ∧
        tl.filter_chains =
          (groups.filter (fun g2 => bind_to g2 = k)).map
            (mk_chain g0.tls_context)) := by
  have h : TCPInv groups (generate_tcp groups) := by
    have h0 : TCPInv [] [] := by
      refine ⟨by simp, by simp, ?_, ?_⟩
      · intro k _ g hg
        simp at hg
      · intro k tl hk
        simp [afind] at hk
    have h := tcp_foldl_inv groups [] [] h0
    rw [List.nil_append] at h
    exact h
  obtain ⟨h1, h2, _, h4⟩ := h
  refine ⟨h1, h2, ?_⟩
  intro k tl hk
  obtain ⟨g0, ha, _, _, _, hb, hc, hd⟩ := h4 k tl hk
  exact ⟨g0, ha, hb, hc, hd⟩

/-- C10 witness: one listener key when two groups share an endpoint. -/
theorem generate_tcp_grouping_witness :
    ((generate_tcp
      [{ address := some "10.0.0.1", port := 2222, host := some "a.example",
         tls_context := some 3,
         mappings := [{ cluster_envoy_name := "ca", weight := 60 },
                      { cluster_envoy_name := "cb", weight := 40 }] },
       { address := some "10.0.0.1", port := 2222, host := some "b.example",
         tls_context := some 3,
         mappings := [{ cluster_envoy_name := "cc", weight := 100 }] }]).map
        Prod.fst).Nodup :=
  (generate_tcp_grouping
    [{ address := some "10.0.0.1", port := 2222, host := some "a.example",
       tls_context := some 3,
       mappings := [{ cluster_envoy_name := "ca", weight := 60 },
                    { cluster_envoy_name := "cb", weight := 40 }] },
     { address := some "10.0.0.1", port := 2222, host := some "b.example",
       tls_context := some 3,
       mappings := [{ cluster_envoy_name := "cc", weight := 100 }] }]).1

theorem hpres_refl {n : Nat} {h : Heap} (hn : n ≤ h.length) : hpres n h h :=
  ⟨hn, fun _ _ => rfl⟩

theorem hpres_halloc_of {n : Nat} {h h2 : Heap} {o : HObj}
    (p : hpres n h h2) : hpres n h (h2 ++ [o]) := by
  refine ⟨le_trans p.1 (by simp), fun a ha => ?_⟩
  rw [List.getElem?_append_left (lt_of_lt_of_le ha p.1)]
  exact p.2 a ha

theorem hpres_hset_of {n : Nat} {h h2 : Heap} {b : Nat} {o : HObj}
    (p : hpres n h h2) (hb : n ≤ b) : hpres n h (hset h2 b o) := by
  refine ⟨by simpa [hset] using p.1, fun a ha => ?_⟩
  rw [hset, List.getElem?_set_ne (by omega)]
  exact p.2 a ha

/-- C8: the variant-building block never mutates any pre-existing heap
object — in particular every object reachable from the canonical route
(its dict, its match, its header list and header dicts) is untouched — and
the three variants are fresh objects: `insecure_route` at the old heap
size, `secure_route` right after it, and `redirect_route` at a strictly
later address. -/
theorem hpres_trans {n : Nat} {h1 h2 h3 : Heap}
    (p : hpres n h1 h2) (q : hpres n h2 h3) : hpres n h1 h3 :=
  ⟨q.1, fun a ha => (q.2 a ha).trans (p.2 a ha)⟩

theorem hpres_mono {n m : Nat} {h h2 : Heap} (hm : m ≤ n)
    (p : hpres n h h2) : hpres m h h2 :=
  ⟨le_trans hm p.1, fun a ha => p.2 a (lt_of_lt_of_le ha hm)⟩

theorem bv_xfp_fix_len (h4 : Heap) (sr : Nat) :
    h4.length ≤ (bv_xfp_fix h4 sr).length := by
  unfold bv_xfp_fix
  dsimp only [halloc]
  split
  · exact Nat.le_refl _
  · split
    · simp only [hset, List.length_set, List.length_append, List.length_cons,
        List.length_nil]
      omega
    · exact Nat.le_refl _

theorem bv_insecure_spec (h0 : Heap) (r : Nat) :
    hpres h0.length h0 (bv_insecure h0 r).1 ∧
    (bv_insecure h0 r).2 = h0.length ∧
    (bv_insecure h0 r).1.length = h0.length + 1 := by
  refine ⟨?_, rfl, ?_⟩
  · unfold bv_insecure
    dsimp only [halloc]
    repeat first
      | exact hpres_refl (Nat.le_refl _)
      | apply hpres_halloc_of
      | refine hpres_hset_of ?_ (by
          try simp only [hset, List.length_set, List.length_append,
            List.length_cons, List.length_nil]
          omega)
  · unfold bv_insecure
    dsimp only [halloc]
    simp [hset]

theorem bv_secure_spec (h3 : Heap) (ir : Nat) :
    hpres h3.length h3 (bv_secure h3 ir).1 ∧
    (bv_secure h3 ir).2 = h3.length ∧
    (bv_secure h3 ir).1.length = h3.length + 1 := by
  refine ⟨?_, rfl, by simp [bv_secure, halloc]⟩
  unfold bv_secure
  dsimp only [halloc]
  exact hpres_halloc_of (hpres_refl (Nat.le_refl _))

theorem bv_xfp_fix_spec (h4 : Heap) (sr : Nat) {n : Nat}
    (hn : n ≤ h4.length) (hsr : n ≤ sr) :
    hpres n h4 (bv_xfp_fix h4 sr) := by
  unfold bv_xfp_fix
  dsimp only [halloc]
  split
  · exact hpres_refl hn
  · split
    · repeat first
        | exact hpres_refl hn
        | apply hpres_halloc_of
        | refine hpres_hset_of ?_ (by
            try simp only [hset, List.length_set, List.length_append,
              List.length_cons, List.length_nil]
            omega)
    · exact hpres_refl hn

theorem bv_redirect_spec (h5 : Heap) (ir : Nat) {n : Nat}
    (hn : n ≤ h5.length) :
    hpres n h5 (bv_redirect h5 ir).1 ∧
    (bv_redirect h5 ir).2 = h5.length := by
  refine ⟨?_, rfl⟩
  unfold bv_redirect
  dsimp only [halloc]
  repeat first
    | exact hpres_refl hn
    | apply hpres_halloc_of
    | refine hpres_hset_of ?_ (by
        try simp only [hset, List.length_set, List.length_append,
          List.length_cons, List.length_nil]
        omega)

/-- C8: the variant-building block never mutates any pre-existing heap
object — in particular every object reachable from the canonical route
(its dict, its match, its header list and header dicts) is untouched — and
the three variants are fresh objects: `insecure_route` at the old heap
size, `secure_route` right above it, and `redirect_route` at a strictly
later address. -/
theorem build_variants_no_mutation (h0 : Heap) (r : Nat) :
    (∀ a, a < h0.length → (build_variants h0 r).1[a]? = h0[a]?) ∧
    (build_variants h0 r).2.1 = h0.length ∧
    (build_variants h0 r).2.2.1 = h0.length + 1 ∧
    h0.length + 2 ≤ (build_variants h0 r).2.2.2 := by
  obtain ⟨p1, hir, hlen3⟩ := bv_insecure_spec h0 r
  obtain ⟨p2, hsr, hlen4⟩ := bv_secure_spec (bv_insecure h0 r).1
    (bv_insecure h0 r).2
  have hn4 : h0.length ≤ (bv_secure (bv_insecure h0 r).1
      (bv_insecure h0 r).2).1.length := by
    rw [hlen4, hlen3]
    omega
  have p2m : hpres h0.length (bv_insecure h0 r).1
      (bv_secure (bv_insecure h0 r).1 (bv_insecure h0 r).2).1 :=
    hpres_mono (by rw [hlen3]; omega) p2
  have p3 : hpres h0.length (bv_secure (bv_insecure h0 r).1
      (bv_insecure h0 r).2).1
      (bv_xfp_fix (bv_secure (bv_insecure h0 r).1 (bv_insecure h0 r).2).1
        (bv_secure (bv_insecure h0 r).1 (bv_insecure h0 r).2).2) :=
    bv_xfp_fix_spec _ _ hn4 (by rw [hsr, hlen3]; omega)
  have p3len : h0.length + 2 ≤
      (bv_xfp_fix (bv_secure (bv_insecure h0 r).1 (bv_insecure h0 r).2).1
        (bv_secure (bv_insecure h0 r).1 (bv_insecure h0 r).2).2).length := by
    have hmono := bv_xfp_fix_len
      (bv_secure (bv_insecure h0 r).1 (bv_insecure h0 r).2).1
      (bv_secure (bv_insecure h0 r).1 (bv_insecure h0 r).2).2
    rw [hlen4, hlen3] at hmono
    omega
  obtain ⟨p4, hrr⟩ := bv_redirect_spec
    (bv_xfp_fix (bv_secure (bv_insecure h0 r).1 (bv_insecure h0 r).2).1
      (bv_secure (bv_insecure h0 r).1 (bv_insecure h0 r).2).2)
    (bv_insecure h0 r).2 (n := h0.length) (by omega)
  have hall : hpres h0.length h0 (build_variants h0 r).1 := by
    unfold build_variants
    dsimp only
    exact hpres_trans (hpres_trans (hpres_trans p1 p2m) p3) p4
  refine ⟨fun a ha => hall.2 a ha, ?_, ?_, ?_⟩
  · show (bv_insecure h0 r).2 = h0.length
    exact hir
  · show (bv_secure (bv_insecure h0 r).1 (bv_insecure h0 r).2).2 =
      h0.length + 1
    rw [hsr, hlen3]
  · show h0.length + 2 ≤ (bv_redirect (bv_xfp_fix (bv_secure
      (bv_insecure h0 r).1 (bv_insecure h0 r).2).1
      (bv_secure (bv_insecure h0 r).1 (bv_insecure h0 r).2).2)
      (bv_insecure h0 r).2).2
    rw [hrr]
    omega

/-- C5 witness: the creation case of `coll_get` at an empty collection. -/
theorem coll_get_spec_witness :
    coll_get { listeners := [] } 8080 true =
      Except.ok
        ({ listeners :=
            [(8080, { V3Listener.init 8080 with use_proxy_proto := true })] },
         { V3Listener.init 8080 with use_proxy_proto := true }) :=
  (coll_get_spec { listeners := [] } 8080 true).1 (by decide)

/-- C8 witness: on a concrete heap holding a route dict at address 0 and its
match dict at address 1, the canonical route dict is unchanged by
`build_variants`. -/
theorem build_variants_no_mutation_witness :
    (build_variants
      [HObj.dict [("match", HVal.ref 1), ("route", HVal.str "c")],
       HObj.dict [("prefix", HVal.str "/x")]] 0).1[0]? =
      some (HObj.dict [("match", HVal.ref 1), ("route", HVal.str "c")]) := by
  rw [(build_variants_no_mutation
    [HObj.dict [("match", HVal.ref 1), ("route", HVal.str "c")],
     HObj.dict [("prefix", HVal.str "/x")]] 0).1 0 (by decide)]
  rfl
